import Mathlib

set_option linter.unusedVariables false

/-!
Verification development for a document-mapping layer: schema registry,
document instances, query builder, executor and reference resolver.
The pure core is embedded as executable Lean definitions and the
specified properties are proved about them.
-/

/-- Modelled from the spec: the store-native structured value format
(section 3, "structured native value").  The repository ships only the
test suite, so the value universe is reconstructed from the spec:
null, strings, booleans, store-assigned identities, sequences and
structured documents (ordered field maps). -/
inductive Value where
  | vnull
  | vstr (s : String)
  | vbool (b : Bool)
  | vid (n : Nat)
  | vlist (items : List Value)
  | vdoc (fields : List (String × Value))
deriving Repr

/-- Modelled from the spec: a field value held by a Document Instance
(section 3).  A value is a primitive store value, an embedded (or
resolved referenced) document given by its type name, optional identity
and field map, a sequence, or an unresolved reference holding the
target type tag and the opaque store-native id. -/
inductive IValue where
  | prim (v : Value)
  | doc (typeName : String) (identity : Option Nat) (values : List (String × IValue))
  | list (items : List IValue)
  | refUnresolved (target : String) (id : Nat)
deriving Repr

/-- Modelled from the spec: the type tag of a Field Descriptor
(section 3), restricted to the catalog the tests exercise: string,
boolean, list-of, embedded document and reference fields. -/
inductive FieldType where
  | stringField
  | booleanField
  | listField (element : FieldType)
  | embeddedField (target : String)
  | referenceField (target : String)
deriving Repr, DecidableEq

mutual

/-- Modelled from the spec: executable equality on store-native values,
used by the executor when testing filter conditions against stored
documents (the driver compares condition values to stored field
values). -/
def beqValue : Value → Value → Bool
  | .vnull, .vnull => true
  | .vstr a, .vstr b => a == b
  | .vbool a, .vbool b => a == b
  | .vid a, .vid b => a == b
  | .vlist xs, .vlist ys => beqValueList xs ys
  | .vdoc xs, .vdoc ys => beqValueFields xs ys
  | _, _ => false

/-- Modelled from the spec: equality on sequences of store values. -/
def beqValueList : List Value → List Value → Bool
  | [], [] => true
  | x :: xs, y :: ys => beqValue x y && beqValueList xs ys
  | _, _ => false

/-- Modelled from the spec: equality on field maps of store values. -/
def beqValueFields : List (String × Value) → List (String × Value) → Bool
  | [], [] => true
  | (k1, v1) :: xs, (k2, v2) :: ys => k1 == k2 && beqValue v1 v2 && beqValueFields xs ys
  | _, _ => false

end

/-- Modelled from the spec: the error taxonomy of section 7.  The
implementation module is absent from the sources, so the error kinds
are reconstructed from the taxonomy: schema conflicts at declaration
time, invalid-document failures (construction with an undeclared
attribute, save-time validation), unknown-field failures (surfaced to
callers as a generic invalid-argument failure), and access to a
reference field before resolution.  Each error carries its
human-readable message. -/
inductive MError where
  | schemaConflict (message : String)
  | invalidDocument (message : String)
  | unknownField (message : String)
  | loadReferencesRequired (message : String)
deriving Repr, DecidableEq

/-- Modelled from the spec: the message of an invalid-document failure
raised when constructing an instance with an undeclared attribute, as
pinned by the test suite. -/
def invalidPropertyCreateMsg (typeName prop : String) : String :=
  "Error creating document " ++ typeName ++ ": Invalid property \x27" ++ prop ++ "\x27."

/-- Modelled from the spec: the message of an invalid-document failure
raised when assigning to an undeclared attribute, as pinned by the
test suite. -/
def invalidPropertyUpdateMsg (prop : String) : String :=
  "Error updating property: Invalid property \x27" ++ prop ++ "\x27."

/-- Modelled from the spec: the message of a schema-conflict failure
raised when two fields collide on storage name, as pinned by the test
suite (note the trailing space). -/
def duplicateFieldMsg (field : String) : String :=
  "Multiple db_fields defined for: " ++ field ++ " "

/-- Modelled from the spec: the message of the invalid-argument failure
raised by filter on an undeclared field, as pinned by the test suite. -/
def invalidFilterMsg (field typeName : String) : String :=
  "Invalid filter \x27" ++ field ++ "\x27: Field not found in \x27" ++ typeName ++ "\x27."

/-- Modelled from the spec: the message of the invalid-argument failure
raised by order-by on an undeclared field, as pinned by the test
suite. -/
def invalidOrderByMsg (field typeName : String) : String :=
  "Invalid order by field \x27" ++ field ++ "\x27: Field not found in \x27" ++ typeName ++ "\x27."

/-- Modelled from the spec: the message of the save-time validation
failure on a missing required field, as pinned by the test suite. -/
def requiredFieldMsg (field : String) : String :=
  "Field \x27" ++ field ++ "\x27 is required."

/-- Modelled from the spec: the message of the failure raised when a
reference field is read before resolution, naming the field and the
owning document type, as pinned by the test suite. -/
def loadReferencesRequiredMsg (field typeName : String) : String :=
  "The property \x27" ++ field ++ "\x27 can\x27t be accessed before calling " ++
    "\x27load_references\x27 on its instance first (" ++ typeName ++ ")."

/-- Modelled from the spec: a Field Descriptor (section 3): semantic
name, storage name, type tag, required-ness, optional default (a
primitive store value), uniqueness and optional maximum length.
Immutable after type declaration. -/
structure FieldDescriptor where
  semantic_name : String
  storage_name : String
  type_tag : FieldType
  required : Bool
  default : Option Value
  unique : Bool
  max_length : Option Nat
deriving Repr

/-- Modelled from the spec: a Schema Registry entry (section 3): type
name, storage collection name, the ordered inheritance-flattened field
map and the optional parent type.  Built once at declaration time and
never mutated. -/
structure Registry where
  type_name : String
  storage_collection_name : String
  fields : List FieldDescriptor
  parent_type : Option String
deriving Repr

/-- Modelled from the spec: the string field declaration surface of the
declaration API (a StringField with required-ness and optional maximum
length; the storage name defaults to the attribute name). -/
def StringField (name : String) (required : Bool) (max_length : Option Nat) : FieldDescriptor :=
  FieldDescriptor.mk name name FieldType.stringField required none false max_length

/-- Modelled from the spec: the boolean field declaration surface (a
BooleanField with an optional default value). -/
def BooleanField (name : String) (default : Option Bool) : FieldDescriptor :=
  FieldDescriptor.mk name name FieldType.booleanField false (default.map Value.vbool) false none

/-- Modelled from the spec: the reference field declaration surface (a
ReferenceField naming the referenced document type). -/
def ReferenceField (name : String) (target : String) (required : Bool) : FieldDescriptor :=
  FieldDescriptor.mk name name (FieldType.referenceField target) required none false none

/-- Modelled from the spec: the list-of-embedded-documents field
declaration surface (a ListField of an EmbeddedDocumentField). -/
def ListOfEmbeddedField (name : String) (target : String) : FieldDescriptor :=
  FieldDescriptor.mk name name (FieldType.listField (FieldType.embeddedField target)) false none false none

/-- Modelled from the spec: the storage names already taken by a list
of field descriptors. -/
def storageNames (fields : List FieldDescriptor) : List String :=
  fields.map (fun d => d.storage_name)

/-- Modelled from the spec: the first field of the declared list whose
storage name collides with an inherited storage name or with an
earlier declared field of the same declaration (section 3 invariant:
no two fields, own or inherited, may resolve to the same storage
name). -/
def firstConflict (taken : List String) : List FieldDescriptor → Option String
  | [] => none
  | f :: rest =>
    if taken.contains f.storage_name then some f.storage_name
    else firstConflict (f.storage_name :: taken) rest

/-- Modelled from the spec: the field map contributed by the parent
registry entry of a declaration, empty for a root document type. -/
def inheritedFields : Option Registry → List FieldDescriptor
  | some p => p.fields
  | none => []

/-- Modelled from the spec: type declaration (section 4.1).  Merges the
parent registry field map with the declared fields; fails with a
schema conflict naming the offending field when any storage name
collides between the merge sources.  The storage collection name
defaults to the declared type name. -/
def declare (type_name : String) (own_fields : List FieldDescriptor)
    (parent : Option Registry) : Except MError Registry :=
  match firstConflict (storageNames (inheritedFields parent)) own_fields with
  | some f => Except.error (MError.schemaConflict (duplicateFieldMsg f))
  | none =>
    Except.ok (Registry.mk type_name type_name (inheritedFields parent ++ own_fields)
      (parent.map (fun p => p.type_name)))

/-- Modelled from the spec: the set of attribute names a Document
Instance may carry (section 4.1), used to police attribute
assignment. -/
def allowedAttributeNames (reg : Registry) : List String :=
  reg.fields.map (fun d => d.semantic_name)

/-- Modelled from the spec: the Field Descriptor declared under a
semantic name in a registry entry. -/
def fieldOf (reg : Registry) (name : String) : Option FieldDescriptor :=
  reg.fields.find? (fun d => d.semantic_name == name)

/-- Modelled from the spec: a Document Instance (section 3): a typed
mutable record bound to a Schema Registry entry (by type name),
holding an optional store-assigned identity, a mapping from semantic
field names to values and the partly-loaded flag. -/
structure DocInstance where
  type_name : String
  identity : Option Nat
  values : List (String × IValue)
  is_partly_loaded : Bool
deriving Repr

/-- Modelled from the spec: lookup of a field value in an ordered
field mapping. -/
def lookupVal : List (String × IValue) → String → Option IValue
  | [], _ => none
  | (k, v) :: rest, name => if k == name then some v else lookupVal rest name

/-- Modelled from the spec: update-or-append of a field value in an
ordered field mapping. -/
def setVal : List (String × IValue) → String → IValue → List (String × IValue)
  | [], name, v => [(name, v)]
  | (k, w) :: rest, name, v =>
    if k == name then (k, v) :: rest else (k, w) :: setVal rest name v

/-- Modelled from the spec: the first key of the initial values that is
not an allowed attribute name of the bound registry entry. -/
def firstUndeclared {α : Type} (reg : Registry) : List (String × α) → Option String
  | [] => none
  | (k, _) :: rest =>
    if (allowedAttributeNames reg).contains k then firstUndeclared reg rest else some k

/-- Modelled from the spec: instance construction (section 4.2).  Fails
with an invalid-document error naming the first offending key when any
initial value key is not an allowed attribute name; otherwise yields a
fresh instance with no identity. -/
def construct (reg : Registry) (initial : List (String × IValue)) : Except MError DocInstance :=
  match firstUndeclared reg initial with
  | some k => Except.error (MError.invalidDocument (invalidPropertyCreateMsg reg.type_name k))
  | none => Except.ok (DocInstance.mk reg.type_name none initial false)

/-- Modelled from the spec: attribute assignment (section 4.2).  Fails
with an invalid-document error when the name is not declared;
otherwise stores the value under the semantic name. -/
def set_attribute (reg : Registry) (inst : DocInstance) (name : String) (v : IValue) :
    Except MError DocInstance :=
  if (allowedAttributeNames reg).contains name then
    Except.ok (DocInstance.mk inst.type_name inst.identity (setVal inst.values name v)
      inst.is_partly_loaded)
  else
    Except.error (MError.invalidDocument (invalidPropertyUpdateMsg name))

/-- Modelled from the spec: the value a field currently carries on an
instance: the assigned value if present, else the primitive default of
its descriptor, else null. -/
def currentValue (inst : DocInstance) (d : FieldDescriptor) : IValue :=
  match lookupVal inst.values d.semantic_name with
  | some v => v
  | none =>
    match d.default with
    | some dv => IValue.prim dv
    | none => IValue.prim Value.vnull

/-- Modelled from the spec: attribute read (section 4.2).  Fails with
an unknown-field error when the name is not declared; fails with the
distinguished load-references-required error, naming the field and the
owning document type, when the field currently holds an unresolved
reference; otherwise yields the current value (default applied). -/
def get_attribute (reg : Registry) (inst : DocInstance) (name : String) :
    Except MError IValue :=
  match fieldOf reg name with
  | none => Except.error (MError.unknownField (invalidFilterMsg name reg.type_name))
  | some d =>
    match currentValue inst d with
    | IValue.refUnresolved _ _ =>
      Except.error (MError.loadReferencesRequired
        (loadReferencesRequiredMsg name inst.type_name))
    | v => Except.ok v

/-- Modelled from the spec: whether an instance value is the null
value (an unassigned field with no default reads as null). -/
def isNullIV : IValue → Bool
  | IValue.prim Value.vnull => true
  | _ => false

/-- Modelled from the spec: save-time validation (section 4.2):
iterates every Field Descriptor marked required in declaration order
and reports the first one whose current value is missing. -/
def firstMissingRequired (reg : Registry) (inst : DocInstance) : Option String :=
  (reg.fields.find? (fun d => d.required && isNullIV (currentValue inst d))).map
    (fun d => d.semantic_name)

/-- Modelled from the spec: validate-for-save (section 4.2).  Fails
with an invalid-document error naming the first missing required
field. -/
def validate_for_save (reg : Registry) (inst : DocInstance) : Except MError Unit :=
  match firstMissingRequired reg inst with
  | some f => Except.error (MError.invalidDocument (requiredFieldMsg f))
  | none => Except.ok ()

/-- Modelled from the spec: the process-wide set of Schema Registry
entries (section 3: one per declared document type, created at
declaration time, read-only afterwards). -/
abbrev Env := List Registry

/-- Modelled from the spec: registry lookup by declared type name. -/
def findRegistry (env : Env) (t : String) : Option Registry :=
  List.find? (fun r => r.type_name == t) env

/-- Modelled from the spec: the flattened field map of a declared type
name (empty when the type is unknown). -/
def fieldsOfType (env : Env) (t : String) : List FieldDescriptor :=
  match findRegistry env t with
  | some r => r.fields
  | none => []

/-- Modelled from the spec: lookup of a raw field in a stored
structured document. -/
def lookupRaw : List (String × Value) → String → Option Value
  | [], _ => none
  | (k, v) :: rest, name => if k == name then some v else lookupRaw rest name

/-- Modelled from the spec: the descriptor type tag governing a
semantic field name (string-typed when the name is undeclared, which
construct prevents from ever holding a value). -/
def typeOfSemantic (descs : List FieldDescriptor) (k : String) : FieldType :=
  match List.find? (fun d => d.semantic_name == k) descs with
  | some d => d.type_tag
  | none => FieldType.stringField

/-- Modelled from the spec: the descriptor type tag governing a
storage field name (string-typed when the name is unknown to the
schema; such raw fields are dropped on assembly). -/
def typeOfStorage (descs : List FieldDescriptor) (k : String) : FieldType :=
  match List.find? (fun d => d.storage_name == k) descs with
  | some d => d.type_tag
  | none => FieldType.stringField

/-- Modelled from the spec: the raw value a descriptor contributes for
an unassigned field: its primitive default, else null. -/
def defaultRaw (d : FieldDescriptor) : Value :=
  match d.default with
  | some dv => dv
  | none => Value.vnull

/-- Modelled from the spec: assembly of the stored document from the
serialized assigned fields: the declared fields are emitted in schema
order under their storage names, with the descriptor default (or
null) emitted for unassigned fields; assigned names outside the
schema are not emitted. -/
def assembleRaw (descs : List FieldDescriptor) (ser : List (String × Value)) :
    List (String × Value) :=
  match descs with
  | [] => []
  | d :: rest =>
    (d.storage_name,
      match lookupRaw ser d.semantic_name with
      | some v => v
      | none => defaultRaw d)
    :: assembleRaw rest ser

/-- Modelled from the spec: assembly of the typed field map from the
converted raw fields: each declared field is read under its storage
name (raw fields unknown to the schema are ignored) and stored under
its semantic name; a field absent from the raw document falls back to
the descriptor default, else null. -/
def assembleDoc (descs : List FieldDescriptor) (conv : List (String × IValue)) :
    List (String × IValue) :=
  match descs with
  | [] => []
  | d :: rest =>
    (d.semantic_name,
      match lookupVal conv d.storage_name with
      | some v => v
      | none => IValue.prim (defaultRaw d))
    :: assembleDoc rest conv

mutual

/-- Modelled from the spec: serialization of one field value under its
descriptor type (section 4.2, to-storage-representation): recursive
descent into embedded documents and sequences; reference fields
serialize to their stored id only (a resolved reference to its target
identity, an unresolved one to the id it already holds). -/
def serializeValue (env : Env) : FieldType → IValue → Value
  | FieldType.referenceField _, IValue.refUnresolved _ i => Value.vid i
  | FieldType.referenceField _, IValue.doc _ oid _ =>
    (match oid with
     | some i => Value.vid i
     | none => Value.vnull)
  | FieldType.referenceField _, IValue.prim v => v
  | FieldType.referenceField _, IValue.list _ => Value.vnull
  | FieldType.embeddedField t, IValue.doc _ _ vals =>
    Value.vdoc (assembleRaw (fieldsOfType env t)
      (serializeFields env (fieldsOfType env t) vals))
  | FieldType.embeddedField _, IValue.prim v => v
  | FieldType.embeddedField _, _ => Value.vnull
  | FieldType.listField et, IValue.list xs => Value.vlist (serializeList env et xs)
  | FieldType.listField _, IValue.prim v => v
  | FieldType.listField _, _ => Value.vnull
  | _, IValue.prim v => v
  | _, _ => Value.vnull

/-- Modelled from the spec: serialization of a sequence of field
values under the element type of a list field. -/
def serializeList (env : Env) (et : FieldType) : List IValue → List Value
  | [] => []
  | x :: xs => serializeValue env et x :: serializeList env et xs

/-- Modelled from the spec: serialization of the assigned fields of a
document, each under the type tag its semantic name is declared
with. -/
def serializeFields (env : Env) (descs : List FieldDescriptor) :
    List (String × IValue) → List (String × Value)
  | [] => []
  | (k, v) :: rest =>
    (k, serializeValue env (typeOfSemantic descs k) v) :: serializeFields env descs rest

end


/-- Modelled from the spec: the schema-driven serialization of a
document field map (serialize every assigned field under its declared
type, then assemble the stored document in schema order). -/
def serializeDoc (env : Env) (descs : List FieldDescriptor)
    (vals : List (String × IValue)) : List (String × Value) :=
  assembleRaw descs (serializeFields env descs vals)

mutual

/-- Modelled from the spec: conversion of one raw stored value back to
a field value under its descriptor type (section 4.2,
from-storage-representation): stored ids under a reference field read
back as unresolved references; embedded documents are rebuilt through
their own schema; shapes not matching the declared type are tolerated
as primitives (polymorphic-read tolerance). -/
def convertValue (env : Env) : FieldType → Value → IValue
  | FieldType.referenceField t, Value.vid i => IValue.refUnresolved t i
  | FieldType.embeddedField t, Value.vdoc kvs =>
    IValue.doc t none (assembleDoc (fieldsOfType env t)
      (convertFields env (fieldsOfType env t) kvs))
  | FieldType.listField et, Value.vlist xs => IValue.list (convertList env et xs)
  | _, v => IValue.prim v

/-- Modelled from the spec: conversion of a stored sequence under the
element type of a list field. -/
def convertList (env : Env) (et : FieldType) : List Value → List IValue
  | [] => []
  | x :: xs => convertValue env et x :: convertList env et xs

/-- Modelled from the spec: conversion of the raw fields of a stored
document, each under the type tag its storage name is declared
with. -/
def convertFields (env : Env) (descs : List FieldDescriptor) :
    List (String × Value) → List (String × IValue)
  | [] => []
  | (k, v) :: rest =>
    (k, convertValue env (typeOfStorage descs k) v) :: convertFields env descs rest

end


/-- Modelled from the spec: the schema-driven rebuilding of a document
field map from a raw stored document (convert every raw field under
its declared type, then assemble the typed field map in schema
order). -/
def convertDoc (env : Env) (descs : List FieldDescriptor)
    (kvs : List (String × Value)) : List (String × IValue) :=
  assembleDoc descs (convertFields env descs kvs)

/-- Modelled from the spec: to-storage-representation of a Document
Instance (section 4.2): the declared fields serialized recursively in
schema order; the identity is carried by the store alongside the
document. -/
def to_storage_representation (env : Env) (reg : Registry) (inst : DocInstance) : Value :=
  Value.vdoc (serializeDoc env reg.fields inst.values)

/-- Modelled from the spec: from-storage-representation (section 4.2):
rebuilds a typed instance from a raw stored document and the identity
the store returned it under; raw fields unknown to the schema are
ignored. -/
def from_storage_representation (env : Env) (reg : Registry) (identity : Option Nat)
    (raw : Value) : DocInstance :=
  match raw with
  | Value.vdoc kvs => DocInstance.mk reg.type_name identity (convertDoc env reg.fields kvs) false
  | _ => DocInstance.mk reg.type_name identity [] false

/-- Modelled from the spec: sort direction of an order-by key (section
4.3: one of ascending or descending). -/
inductive Direction where
  | ascending
  | descending
deriving Repr, DecidableEq

/-- Modelled from the spec: the descending sort constant exposed by
the query surface. -/
def DESCENDING : Direction := Direction.descending

/-- Modelled from the spec: the ascending sort constant exposed by the
query surface. -/
def ASCENDING : Direction := Direction.ascending

/-- Modelled from the spec: a Query Specification (section 3): bound
document type, ordered equality filter conditions keyed by storage
field name, ordered sort keys, optional limit and skip.  Immutable;
every chaining operation returns a new specification. -/
structure QuerySpec where
  document_type : String
  filter_conditions : List (String × Value)
  sort_keys : List (String × Direction)
  limit : Option Nat
  skip : Option Nat
deriving Repr

/-- Modelled from the spec: the empty query specification bound to a
document type (the objects-equivalent entry point, section 2). -/
def objectsQuery (reg : Registry) : QuerySpec :=
  QuerySpec.mk reg.type_name [] [] none none

/-- Modelled from the spec: the storage field name a declared semantic
name maps to. -/
def storageNameOf (reg : Registry) (name : String) : String :=
  match fieldOf reg name with
  | some d => d.storage_name
  | none => name

/-- Modelled from the spec: the filter chaining operation (section
4.3).  Validates every condition key eagerly at chain-build time,
before any store call can be issued; fails with the invalid-argument
failure naming the field and the type when a key is not declared;
otherwise returns a new specification with the conditions appended
under their storage names. -/
def qfilter (reg : Registry) (q : QuerySpec) (conditions : List (String × Value)) :
    Except MError QuerySpec :=
  match firstUndeclared reg conditions with
  | some k => Except.error (MError.unknownField (invalidFilterMsg k reg.type_name))
  | none =>
    Except.ok (QuerySpec.mk q.document_type
      (q.filter_conditions ++ conditions.map (fun c => (storageNameOf reg c.1, c.2)))
      q.sort_keys q.limit q.skip)

/-- Modelled from the spec: the order-by chaining operation (section
4.3).  Validates the field eagerly at chain-build time; fails with the
invalid-argument failure naming the field and the type when the field
is not declared. -/
def order_by (reg : Registry) (q : QuerySpec) (field : String) (dir : Direction) :
    Except MError QuerySpec :=
  if (allowedAttributeNames reg).contains field then
    Except.ok (QuerySpec.mk q.document_type q.filter_conditions
      (q.sort_keys ++ [(storageNameOf reg field, dir)]) q.limit q.skip)
  else
    Except.error (MError.unknownField (invalidOrderByMsg field reg.type_name))

/-- Modelled from the spec: the limit chaining operation (section 4.3). -/
def qlimit (q : QuerySpec) (n : Nat) : QuerySpec :=
  QuerySpec.mk q.document_type q.filter_conditions q.sort_keys (some n) q.skip

/-- Modelled from the spec: the skip chaining operation (section 4.3). -/
def qskip (q : QuerySpec) (n : Nat) : QuerySpec :=
  QuerySpec.mk q.document_type q.filter_conditions q.sort_keys q.limit (some n)

/-- Modelled from the spec: the external document store visible at the
driver boundary (section 6): named collections of identity-keyed
stored documents. -/
structure Store where
  collections : List (String × List (Nat × Value))
deriving Repr

/-- Modelled from the spec: the rows of a named collection (empty when
the collection does not exist). -/
def collectionOf (S : Store) (name : String) : List (Nat × Value) :=
  match List.find? (fun c => c.1 == name) S.collections with
  | some c => c.2
  | none => []

/-- Modelled from the spec: driver fetch-by-identity against a named
collection. -/
def fetchOne (S : Store) (coll : String) (id : Nat) : Option Value :=
  (List.find? (fun r => r.1 == id) (collectionOf S coll)).map (fun r => r.2)

/-- Modelled from the spec: whether a stored document satisfies every
equality filter condition of a query specification. -/
def matchesConditions (conds : List (String × Value)) (raw : Value) : Bool :=
  conds.all (fun c =>
    match raw with
    | Value.vdoc kvs =>
      match lookupRaw kvs c.1 with
      | some v => beqValue v c.2
      | none => false
    | _ => false)

/-- Modelled from the spec: lexicographic order on the character
sequences of two strings, the order the store applies to string sort
keys. -/
def strLtList : List Char → List Char → Bool
  | [], [] => false
  | [], _ :: _ => true
  | _ :: _, [] => false
  | c :: cs, d :: ds =>
    if c.toNat < d.toNat then true
    else if d.toNat < c.toNat then false
    else strLtList cs ds

/-- Modelled from the spec: lexicographic order on strings. -/
def strLt (a b : String) : Bool := strLtList a.data b.data

/-- Modelled from the spec: the strict value order the store applies to
sort keys (numeric on identities, lexicographic on strings, false
before true on booleans; values of different shapes are unordered). -/
def vless : Value → Value → Bool
  | Value.vstr a, Value.vstr b => strLt a b
  | Value.vid a, Value.vid b => decide (a < b)
  | Value.vbool a, Value.vbool b => !a && b
  | _, _ => false

/-- Modelled from the spec: the field value of a stored document under
a storage field name, null when absent. -/
def fieldValOf (raw : Value) (f : String) : Value :=
  match raw with
  | Value.vdoc kvs =>
    match lookupRaw kvs f with
    | some v => v
    | none => Value.vnull
  | _ => Value.vnull

/-- Modelled from the spec: whether document a sorts strictly before
document b under an ordered list of sort keys. -/
def docBefore : List (String × Direction) → Value → Value → Bool
  | [], _, _ => false
  | (f, dir) :: rest, a, b =>
    let va := fieldValOf a f
    let vb := fieldValOf b f
    if beqValue va vb then docBefore rest a b
    else
      match dir with
      | Direction.ascending => vless va vb
      | Direction.descending => vless vb va

/-- Modelled from the spec: stable insertion of a row into a sorted
row list under a strict before-relation. -/
def insertSorted {α : Type} (before : α → α → Bool) (x : α) : List α → List α
  | [] => [x]
  | y :: ys => if before y x then y :: insertSorted before x ys else x :: y :: ys

/-- Modelled from the spec: stable sort of the matching rows under a
strict before-relation. -/
def sortRows {α : Type} (before : α → α → Bool) : List α → List α
  | [] => []
  | x :: xs => insertSorted before x (sortRows before xs)

/-- Modelled from the spec: the rows of the bound collection matching
the filter conditions of a query specification. -/
def matchingRows (reg : Registry) (q : QuerySpec) (S : Store) : List (Nat × Value) :=
  (collectionOf S reg.storage_collection_name).filter
    (fun r => matchesConditions q.filter_conditions r.2)

/-- Modelled from the spec: query execution (section 4.3, find-all):
the matching rows are sorted under the sort keys, then skip and limit
are applied, and each surviving row is materialized into a typed
instance via from-storage-representation. -/
def find_all (env : Env) (reg : Registry) (q : QuerySpec) (S : Store) : List DocInstance :=
  let rows := matchingRows reg q S
  let sorted := sortRows (fun a b => docBefore q.sort_keys a.2 b.2) rows
  let skipped := match q.skip with
    | some n => sorted.drop n
    | none => sorted
  let limited := match q.limit with
    | some n => skipped.take n
    | none => skipped
  limited.map (fun r => from_storage_representation env reg (some r.1) r.2)

/-- Modelled from the spec: count execution (section 4.3): a count
against the same filter conditions, independent of limit and skip. -/
def qcount (reg : Registry) (q : QuerySpec) (S : Store) : Nat :=
  (matchingRows reg q S).length

/-- Modelled from the spec: the next store-assigned identity of a
collection (the store assigns identities on first insert). -/
def freshId (rows : List (Nat × Value)) : Nat :=
  rows.foldl (fun m r => max m r.1) 0 + 1

/-- Modelled from the spec: insert-or-replace of an identity-keyed row
in a collection. -/
def putRow : List (Nat × Value) → Nat → Value → List (Nat × Value)
  | [], i, v => [(i, v)]
  | r :: rest, i, v => if r.1 == i then (i, v) :: rest else r :: putRow rest i v

/-- Modelled from the spec: replacing the rows of a named collection in
the store. -/
def setCollection (S : Store) (name : String) (rows : List (Nat × Value)) : Store :=
  if S.collections.any (fun c => c.1 == name) then
    Store.mk (S.collections.map (fun c => if c.1 == name then (name, rows) else c))
  else
    Store.mk (S.collections ++ [(name, rows)])

/-- Modelled from the spec: save (section 4.4): runs validate-for-save
and performs no store write on failure; otherwise inserts the
serialized document, assigning the store identity when the instance
has none, or replaces the stored document under the existing
identity. -/
def save (env : Env) (reg : Registry) (inst : DocInstance) (S : Store) :
    (Except MError DocInstance) × Store :=
  match validate_for_save reg inst with
  | Except.error e => (Except.error e, S)
  | Except.ok _ =>
    let coll := reg.storage_collection_name
    let rows := collectionOf S coll
    let raw := to_storage_representation env reg inst
    match inst.identity with
    | some i => (Except.ok inst, setCollection S coll (putRow rows i raw))
    | none =>
      let i := freshId rows
      (Except.ok (DocInstance.mk inst.type_name (some i) inst.values inst.is_partly_loaded),
        setCollection S coll (putRow rows i raw))

/-- Modelled from the spec: fetch-by-identity (section 4.4, get):
materializes the stored document under the given identity into a
typed instance, or null when absent. -/
def getById (env : Env) (reg : Registry) (S : Store) (i : Nat) : Option DocInstance :=
  (fetchOne S reg.storage_collection_name i).map (from_storage_representation env reg (some i))

mutual

/-- Modelled from the spec: collection of the unresolved reference
slots of a field value (section 4.5): the resolver walks the field
graph through nested embedded documents and sequences, collecting
every unresolved reference as a target-type/identity pair. -/
def slotsIV : IValue → List (String × Nat)
  | IValue.prim _ => []
  | IValue.refUnresolved t i => [(t, i)]
  | IValue.doc _ _ vals => slotsFields vals
  | IValue.list xs => slotsList xs

/-- Modelled from the spec: unresolved reference slots of a sequence
of field values. -/
def slotsList : List IValue → List (String × Nat)
  | [] => []
  | x :: xs => slotsIV x ++ slotsList xs

/-- Modelled from the spec: unresolved reference slots of a document
field map. -/
def slotsFields : List (String × IValue) → List (String × Nat)
  | [] => []
  | (_, v) :: rest => slotsIV v ++ slotsFields rest

end

/-- Modelled from the spec: the distinct referenced target types, in
first-occurrence order (the resolver groups slots by target type). -/
def distinctTargets (slots : List (String × Nat)) : List String :=
  (slots.map (fun s => s.1)).eraseDups

/-- Modelled from the spec: the storage collection a declared type
name is bound to. -/
def collectionNameOf (env : Env) (t : String) : String :=
  match findRegistry env t with
  | some r => r.storage_collection_name
  | none => t

/-- Modelled from the spec: the registry entry of a declared type name
(an empty entry when the type is unknown). -/
def regOfType (env : Env) (t : String) : Registry :=
  match findRegistry env t with
  | some r => r
  | none => Registry.mk t t [] none

/-- Modelled from the spec: one batched fetch-by-identity-set against
one target type collection (section 4.5: exactly one batch per
distinct target type), materializing each found document. -/
def fetchBatch (env : Env) (S : Store) (t : String) (ids : List Nat) :
    List (String × Nat × DocInstance) :=
  ids.filterMap (fun i =>
    (fetchOne S (collectionNameOf env t) i).map
      (fun raw => (t, i, from_storage_representation env (regOfType env t) (some i) raw)))

/-- Modelled from the spec: the joined results of the per-type batched
fetches over all collected slots (each distinct identity of a target
type is requested once). -/
def batchResults (env : Env) (S : Store) (slots : List (String × Nat)) :
    List (String × Nat × DocInstance) :=
  ((distinctTargets slots).map (fun t =>
    fetchBatch env S t (((slots.filter (fun s => s.1 == t)).map (fun s => s.2)).eraseDups))).flatten

/-- Modelled from the spec: lookup of a resolved instance for a
target-type/identity pair among the batch results (a single fetched
instance may serve several slots that share the identity). -/
def findResolved (res : List (String × Nat × DocInstance)) (t : String) (i : Nat) :
    Option DocInstance :=
  (res.find? (fun r => r.1 == t && r.2.1 == i)).map (fun r => r.2.2)

mutual

/-- Modelled from the spec: splicing the resolved instances back into
a field value in place (section 4.5), counting the reference slots
successfully resolved; slots whose target was not fetched stay
unresolved. -/
def spliceIV (res : List (String × Nat × DocInstance)) : IValue → Nat × IValue
  | IValue.prim v => (0, IValue.prim v)
  | IValue.refUnresolved t i =>
    match findResolved res t i with
    | some d => (1, IValue.doc d.type_name d.identity d.values)
    | none => (0, IValue.refUnresolved t i)
  | IValue.doc t oid vals =>
    let p := spliceFields res vals
    (p.1, IValue.doc t oid p.2)
  | IValue.list xs =>
    let p := spliceList res xs
    (p.1, IValue.list p.2)

/-- Modelled from the spec: splicing through a sequence of field
values. -/
def spliceList (res : List (String × Nat × DocInstance)) : List IValue → Nat × List IValue
  | [] => (0, [])
  | x :: xs =>
    let p := spliceIV res x
    let q := spliceList res xs
    (p.1 + q.1, p.2 :: q.2)

/-- Modelled from the spec: splicing through a document field map. -/
def spliceFields (res : List (String × Nat × DocInstance)) :
    List (String × IValue) → Nat × List (String × IValue)
  | [] => (0, [])
  | (k, v) :: rest =>
    let p := spliceIV res v
    let q := spliceFields res rest
    (p.1 + q.1, (k, p.2) :: q.2)

end

/-- Modelled from the spec: reference resolution (section 4.5): walks
the root instance field graph collecting all unresolved reference
slots, performs one batched fetch per distinct target type, splices
each fetched instance back into every slot that referenced its
identity, and returns the total number of reference slots successfully
resolved together with the updated instance. -/
def load_references (env : Env) (S : Store) (root : DocInstance) : Nat × DocInstance :=
  let slots := slotsFields root.values
  let res := batchResults env S slots
  let p := spliceFields res root.values
  (p.1, DocInstance.mk root.type_name root.identity p.2 root.is_partly_loaded)

/-- Modelled from the spec: the field declarations of the User document
type of the test suite (email required; first and last name with
maximum length 50; is-admin boolean defaulting to true). -/
def userFields : List FieldDescriptor :=
  [StringField "email" true none,
   StringField "first_name" false (some 50),
   StringField "last_name" false (some 50),
   BooleanField "is_admin" (some true)]

/-- Modelled from the spec: the User registry entry produced by
declaring the User document type. -/
def userReg : Registry :=
  match declare "User" userFields none with
  | Except.ok r => r
  | Except.error _ => Registry.mk "User" "User" [] none

/-- Modelled from the spec: the Employee registry entry, declared as a
subtype of User with one further string field. -/
def employeeReg : Registry :=
  match declare "Employee" [StringField "emp_number" false none] (some userReg) with
  | Except.ok r => r
  | Except.error _ => Registry.mk "Employee" "Employee" [] none

/-- Modelled from the spec: the Comment registry entry of the test
suite (required text and a required reference to User). -/
def commentReg : Registry :=
  match declare "Comment" [StringField "text" true none, ReferenceField "user" "User" true] none with
  | Except.ok r => r
  | Except.error _ => Registry.mk "Comment" "Comment" [] none

/-- Modelled from the spec: the Post registry entry of the test suite
(required title and body and a list of embedded Comment documents). -/
def postReg : Registry :=
  match declare "Post"
      [StringField "title" true none, StringField "body" true none,
       ListOfEmbeddedField "comments" "Comment"] none with
  | Except.ok r => r
  | Except.error _ => Registry.mk "Post" "Post" [] none

/-- Modelled from the spec: the process-wide registry environment of
the declared test document types. -/
def testEnv : Env := [userReg, employeeReg, commentReg, postReg]

/-!
Helper lemmas shared by the claim theorems.
-/

theorem firstUndeclared_skips {α : Type} (reg : Registry) :
    ∀ (pre : List (String × α)),
      (∀ s ∈ pre.map Prod.fst, (allowedAttributeNames reg).contains s = true) →
      ∀ l, firstUndeclared reg (pre ++ l) = firstUndeclared reg l := by
  intro pre
  induction pre with
  | nil => intro h l; rfl
  | cons p ps ih =>
    intro h l
    obtain ⟨k, w⟩ := p
    have hk : (allowedAttributeNames reg).contains k = true := h k (by simp)
    simp only [List.cons_append, firstUndeclared, hk, if_true]
    exact ih (fun s hs => h s (by simp at hs ⊢; exact Or.inr hs)) l

theorem firstUndeclared_none {α : Type} (reg : Registry) (l : List (String × α))
    (h : ∀ s ∈ l.map Prod.fst, (allowedAttributeNames reg).contains s = true) :
    firstUndeclared reg l = none := by
  have := firstUndeclared_skips reg l h []
  simpa using this

theorem firstConflict_skips :
    ∀ (pre : List FieldDescriptor) (taken : List String),
      (∀ f ∈ pre, taken.contains f.storage_name = false) →
      List.Pairwise (fun a b => a.storage_name ≠ b.storage_name) pre →
      ∀ l, firstConflict taken (pre ++ l) =
        firstConflict ((pre.map (fun f => f.storage_name)).reverse ++ taken) l := by
  intro pre
  induction pre with
  | nil => intro taken h1 h2 l; rfl
  | cons e pre ih =>
    intro taken h1 h2 l
    have he : taken.contains e.storage_name = false := h1 e (by simp)
    have unf : firstConflict taken ((e :: pre) ++ l)
        = firstConflict (e.storage_name :: taken) (pre ++ l) := by
      show (if taken.contains e.storage_name then some e.storage_name
            else firstConflict (e.storage_name :: taken) (pre ++ l))
          = firstConflict (e.storage_name :: taken) (pre ++ l)
      rw [he]
      simp
    rw [unf, ih (e.storage_name :: taken) ?_ ((List.pairwise_cons.mp h2).2) l]
    · simp
    · intro f hf
      have hne : e.storage_name ≠ f.storage_name := (List.pairwise_cons.mp h2).1 f hf
      have hf1 : taken.contains f.storage_name = false := h1 f (by simp [hf])
      simp [List.contains_cons]
      exact ⟨Ne.symm hne, by simpa using hf1⟩

theorem find?_skips {α : Type} (p : α → Bool) :
    ∀ (pre : List α), (∀ e ∈ pre, p e = false) →
      ∀ l, List.find? p (pre ++ l) = List.find? p l := by
  intro pre
  induction pre with
  | nil => intro h l; rfl
  | cons e pre ih =>
    intro h l
    simp only [List.cons_append, List.find?_cons, h e (by simp)]
    exact ih (fun f hf => h f (by simp [hf])) l

/-!
The claim theorems.
-/

/-- C10: for every declared document type, the storage collection name
defaults to the declaring type name exactly when no explicit collection
name is given (the declaration surface takes none, so every successful
declaration binds the collection named after the type). -/
theorem collection_name_defaults_to_type_name (T : String)
    (own_fields : List FieldDescriptor) (parent : Option Registry) (reg : Registry)
    (h : declare T own_fields parent = Except.ok reg) :
    reg.storage_collection_name = T := by
  unfold declare at h
  split at h
  · exact Except.noConfusion h
  · cases h
    rfl

/-- Witness for C10: the declared User type is bound to the collection
named User, exactly as the test suite asserts. -/
theorem collection_name_defaults_witness : userReg.storage_collection_name = "User" :=
  collection_name_defaults_to_type_name "User" userFields none userReg rfl

/-- C5: for every document type and every field name not declared in
its schema, building a filter condition or an order-by key on the
query specification fails at chain-build time (the chaining operations
are pure and consult no store) with the generic invalid-argument
failure whose message names both the field and the type. -/
theorem filter_order_by_invalid_field_fails (reg : Registry) (q : QuerySpec)
    (f : String) (v : Value) (dir : Direction)
    (h : (allowedAttributeNames reg).contains f = false) :
    qfilter reg q [(f, v)] =
      Except.error (MError.unknownField (invalidFilterMsg f reg.type_name)) ∧
    order_by reg q f dir =
      Except.error (MError.unknownField (invalidOrderByMsg f reg.type_name)) := by
  have h2 : f ∉ allowedAttributeNames reg := by simpa using h
  constructor
  · unfold qfilter firstUndeclared
    simp [h2]
  · unfold order_by
    simp [h2]

/-- Witness for C5: filtering or ordering Users by the undeclared
field of the test suite fails with exactly the messages the tests
assert. -/
theorem filter_order_by_invalid_field_witness :
    qfilter userReg (objectsQuery userReg) [("invalid_field", Value.vbool true)] =
      Except.error (MError.unknownField
        "Invalid filter \x27invalid_field\x27: Field not found in \x27User\x27.") ∧
    order_by userReg (objectsQuery userReg) "invalid_field" ASCENDING =
      Except.error (MError.unknownField
        "Invalid order by field \x27invalid_field\x27: Field not found in \x27User\x27.") :=
  filter_order_by_invalid_field_fails userReg (objectsQuery userReg)
    "invalid_field" (Value.vbool true) ASCENDING rfl

/-- C3: for every document type, constructing an instance with any key
not declared in the schema fails with an invalid-document error naming
the first offending key; constructing with only declared keys
succeeds; and assigning to an undeclared attribute fails with the same
error kind carrying the pinned update message. -/
theorem construct_set_attribute_policing (reg : Registry) :
    (∀ (pre : List (String × IValue)) (k : String) (w : IValue)
        (rest : List (String × IValue)),
      (∀ s ∈ pre.map Prod.fst, (allowedAttributeNames reg).contains s = true) →
      (allowedAttributeNames reg).contains k = false →
      construct reg (pre ++ (k, w) :: rest) =
        Except.error (MError.invalidDocument (invalidPropertyCreateMsg reg.type_name k))) ∧
    (∀ initial : List (String × IValue),
      (∀ s ∈ initial.map Prod.fst, (allowedAttributeNames reg).contains s = true) →
      construct reg initial = Except.ok (DocInstance.mk reg.type_name none initial false)) ∧
    (∀ (inst : DocInstance) (k : String) (w : IValue),
      (allowedAttributeNames reg).contains k = false →
      set_attribute reg inst k w =
        Except.error (MError.invalidDocument (invalidPropertyUpdateMsg k))) := by
  refine ⟨?_, ?_, ?_⟩
  · intro pre k w rest hpre hk
    unfold construct
    rw [firstUndeclared_skips reg pre hpre ((k, w) :: rest)]
    have unf : firstUndeclared reg ((k, w) :: rest)
        = (if (allowedAttributeNames reg).contains k then firstUndeclared reg rest
           else some k) := rfl
    rw [unf, hk]
    simp
  · intro initial h
    unfold construct
    rw [firstUndeclared_none reg initial h]
  · intro inst k w hk
    unfold set_attribute
    rw [hk]
    simp

/-- Witness for C3: the three concrete scenarios of the test suite:
constructing a User with the undeclared key fails with the pinned
creation message, constructing with only declared keys succeeds, and
assigning an undeclared attribute fails with the pinned update
message. -/
theorem construct_set_attribute_witness :
    construct userReg
      [("email", IValue.prim (Value.vstr "heynemann@gmail.com")),
       ("first_name", IValue.prim (Value.vstr "Bernardo")),
       ("last_name", IValue.prim (Value.vstr "Heynemann")),
       ("wrong_property", IValue.prim (Value.vstr "value"))] =
      Except.error (MError.invalidDocument
        "Error creating document User: Invalid property \x27wrong_property\x27.") ∧
    construct userReg
      [("email", IValue.prim (Value.vstr "heynemann@gmail.com")),
       ("first_name", IValue.prim (Value.vstr "Bernardo")),
       ("last_name", IValue.prim (Value.vstr "Heynemann"))] =
      Except.ok (DocInstance.mk "User" none
        [("email", IValue.prim (Value.vstr "heynemann@gmail.com")),
         ("first_name", IValue.prim (Value.vstr "Bernardo")),
         ("last_name", IValue.prim (Value.vstr "Heynemann"))] false) ∧
    set_attribute userReg (DocInstance.mk "User" none [] false)
      "invalid_property" (IValue.prim (Value.vstr "a")) =
      Except.error (MError.invalidDocument
        "Error updating property: Invalid property \x27invalid_property\x27.") :=
  ⟨(construct_set_attribute_policing userReg).1
      [("email", IValue.prim (Value.vstr "heynemann@gmail.com")),
       ("first_name", IValue.prim (Value.vstr "Bernardo")),
       ("last_name", IValue.prim (Value.vstr "Heynemann"))]
      "wrong_property" (IValue.prim (Value.vstr "value")) [] (by decide) rfl,
   (construct_set_attribute_policing userReg).2.1
      [("email", IValue.prim (Value.vstr "heynemann@gmail.com")),
       ("first_name", IValue.prim (Value.vstr "Bernardo")),
       ("last_name", IValue.prim (Value.vstr "Heynemann"))] (by decide),
   (construct_set_attribute_policing userReg).2.2
      (DocInstance.mk "User" none [] false) "invalid_property"
      (IValue.prim (Value.vstr "a")) rfl⟩

/-- C4: for every pair of document types where the subtype redeclares
a field whose storage name collides with a field inherited from the
parent, the declaration itself fails (the failure is the result of the
declare call, so it happens at type-declaration time, not at use
time) with a schema-conflict error naming the offending field. -/
theorem declare_conflicting_storage_name_fails (T : String) (parentReg : Registry)
    (pre : List FieldDescriptor) (d : FieldDescriptor) (rest : List FieldDescriptor)
    (hpre : ∀ f ∈ pre, (storageNames parentReg.fields).contains f.storage_name = false)
    (hdistinct : List.Pairwise (fun a b => a.storage_name ≠ b.storage_name) pre)
    (hdup : (storageNames parentReg.fields).contains d.storage_name = true) :
    declare T (pre ++ d :: rest) (some parentReg) =
      Except.error (MError.schemaConflict (duplicateFieldMsg d.storage_name)) := by
  unfold declare
  have hinh : storageNames (inheritedFields (some parentReg)) = storageNames parentReg.fields := rfl
  rw [hinh, firstConflict_skips pre (storageNames parentReg.fields) hpre hdistinct (d :: rest)]
  have unf : firstConflict ((pre.map (fun f => f.storage_name)).reverse ++ storageNames parentReg.fields) (d :: rest)
      = (if ((pre.map (fun f => f.storage_name)).reverse ++ storageNames parentReg.fields).contains d.storage_name
         then some d.storage_name
         else firstConflict (d.storage_name :: ((pre.map (fun f => f.storage_name)).reverse ++ storageNames parentReg.fields)) rest) := rfl
  rw [unf]
  have hc : ((pre.map (fun f => f.storage_name)).reverse ++ storageNames parentReg.fields).contains d.storage_name = true := by
    simp [List.contains_eq_any_beq, List.any_append] at hdup ⊢
    exact Or.inr hdup
  rw [hc]
  simp

/-- Witness for C4: redeclaring the email field of User in a subtype
fails at declaration time with exactly the schema-conflict message the
test suite asserts. -/
theorem declare_conflicting_witness :
    declare "DuplicateField" [StringField "email" true none] (some userReg) =
      Except.error (MError.schemaConflict "Multiple db_fields defined for: email ") :=
  declare_conflicting_storage_name_fails "DuplicateField" userReg []
    (StringField "email" true none) []
    (by intro f hf; cases hf) List.Pairwise.nil rfl

/-- C6: for every document instance missing at least one required
field, save fails with an invalid-document error naming the first
missing required field, and the store is returned unchanged (no write
is performed). -/
theorem save_missing_required_field_fails (env : Env) (reg : Registry)
    (inst : DocInstance) (S : Store)
    (pre : List FieldDescriptor) (d : FieldDescriptor) (rest : List FieldDescriptor)
    (hfields : reg.fields = pre ++ d :: rest)
    (hpre : ∀ e ∈ pre, (e.required && isNullIV (currentValue inst e)) = false)
    (hreq : d.required = true)
    (hmiss : isNullIV (currentValue inst d) = true) :
    save env reg inst S =
      (Except.error (MError.invalidDocument (requiredFieldMsg d.semantic_name)), S) := by
  have hfind : firstMissingRequired reg inst = some d.semantic_name := by
    unfold firstMissingRequired
    rw [hfields, find?_skips _ pre hpre (d :: rest)]
    rw [List.find?_cons_of_pos]
    · rfl
    · simp [hreq, hmiss]
  unfold save validate_for_save
  rw [hfind]

/-- Witness for C6: saving an Employee with no email over the empty
store fails with exactly the required-field message of the test suite
and leaves the store empty. -/
theorem save_missing_required_witness :
    save testEnv employeeReg
      (DocInstance.mk "Employee" none
        [("first_name", IValue.prim (Value.vstr "Bernardo")),
         ("last_name", IValue.prim (Value.vstr "Heynemann")),
         ("emp_number", IValue.prim (Value.vstr "Employee"))] false)
      (Store.mk []) =
      (Except.error (MError.invalidDocument "Field \x27email\x27 is required."), Store.mk []) :=
  save_missing_required_field_fails testEnv employeeReg
    (DocInstance.mk "Employee" none
      [("first_name", IValue.prim (Value.vstr "Bernardo")),
       ("last_name", IValue.prim (Value.vstr "Heynemann")),
       ("emp_number", IValue.prim (Value.vstr "Employee"))] false)
    (Store.mk []) []
    (StringField "email" true none)
    [StringField "first_name" false (some 50), StringField "last_name" false (some 50),
     BooleanField "is_admin" (some true), StringField "emp_number" false none]
    rfl (by intro e he; cases he) rfl rfl

/-- C7: count executed on a query specification returns the number of
stored documents matching its filter conditions, independent of any
limit or skip; with no filter it is the total size of the bound
collection, and in general it is the number of matching stored
documents (so a filter matching n documents counts n, including 0). -/
theorem count_matches_filter_only (reg : Registry) (q : QuerySpec) (S : Store)
    (n m : Nat) :
    qcount reg (qlimit q n) S = qcount reg q S ∧
    qcount reg (qskip q m) S = qcount reg q S ∧
    qcount reg (objectsQuery reg) S = (collectionOf S reg.storage_collection_name).length ∧
    qcount reg q S = (matchingRows reg q S).length := by
  refine ⟨rfl, rfl, ?_, rfl⟩
  unfold qcount matchingRows objectsQuery matchesConditions
  simp

theorem strLtList_irrefl : ∀ l : List Char, strLtList l l = false := by
  intro l
  induction l with
  | nil => rfl
  | cons c cs ih => simp [strLtList, ih]

theorem strLt_irrefl (a : String) : strLt a a = false := strLtList_irrefl a.data

theorem vless_beq_symm_false (a b : Value) (h : vless a b = true) :
    beqValue b a = false := by
  cases a <;> cases b <;> simp [vless] at h ⊢ <;> simp [beqValue]
  case vstr.vstr =>
    intro heq
    rw [heq, strLt_irrefl] at h
    exact Bool.noConfusion h
  case vbool.vbool =>
    obtain ⟨h1, h2⟩ := h
    subst h1
    subst h2
    simp
  case vid.vid => omega

theorem strLtList_asymm :
    ∀ l1 l2 : List Char, strLtList l1 l2 = true → strLtList l2 l1 = false := by
  intro l1
  induction l1 with
  | nil =>
    intro l2 h
    cases l2 with
    | nil => simp [strLtList] at h
    | cons d ds => rfl
  | cons c cs ih =>
    intro l2 h
    cases l2 with
    | nil => simp [strLtList] at h
    | cons d ds =>
      by_cases h1 : c.toNat < d.toNat
      · have h2 : ¬ d.toNat < c.toNat := by omega
        simp [strLtList, h1, h2]
      · by_cases h2 : d.toNat < c.toNat
        · simp [strLtList, h1, h2] at h
        · simp [strLtList, h1, h2] at h ⊢
          exact ih ds h

theorem vless_asymm (a b : Value) (h : vless a b = true) : vless b a = false := by
  cases a <;> cases b <;> simp [vless] at h ⊢
  case vstr.vstr => exact strLtList_asymm _ _ h
  case vbool.vbool =>
    obtain ⟨h1, h2⟩ := h
    subst h1
    subst h2
    simp
  case vid.vid => omega

theorem vless_beq_false (a b : Value) (h : vless a b = true) :
    beqValue a b = false := by
  cases a <;> cases b <;> simp [vless] at h ⊢ <;> simp [beqValue]
  case vstr.vstr =>
    intro heq
    rw [← heq, strLt_irrefl] at h
    exact Bool.noConfusion h
  case vbool.vbool =>
    obtain ⟨h1, h2⟩ := h
    subst h1
    subst h2
    simp
  case vid.vid => omega

/-- C8: on a collection holding exactly two documents, executing
find-all under an order-by on a declared field in descending direction
returns both documents, the one with the greater sort-key value
first, whichever of the two stored orders the collection holds them
in. -/
theorem find_all_descending_two_docs (env : Env) (reg : Registry)
    (f : String) (q : QuerySpec) (i1 i2 : Nat) (d1 d2 : Value) (S : Store)
    (hcoll : collectionOf S reg.storage_collection_name = [(i1, d1), (i2, d2)])
    (hq : order_by reg (objectsQuery reg) f DESCENDING = Except.ok q) :
    (vless (fieldValOf d1 (storageNameOf reg f))
        (fieldValOf d2 (storageNameOf reg f)) = true →
      find_all env reg q S =
        [from_storage_representation env reg (some i2) d2,
         from_storage_representation env reg (some i1) d1]) ∧
    (vless (fieldValOf d2 (storageNameOf reg f))
        (fieldValOf d1 (storageNameOf reg f)) = true →
      find_all env reg q S =
        [from_storage_representation env reg (some i1) d1,
         from_storage_representation env reg (some i2) d2]) := by
  unfold order_by at hq
  split at hq
  · cases hq
    constructor
    · intro hlt
      have hbeq : beqValue (fieldValOf d2 (storageNameOf reg f))
          (fieldValOf d1 (storageNameOf reg f)) = false :=
        vless_beq_symm_false _ _ hlt
      unfold find_all matchingRows
      rw [hcoll]
      simp only [objectsQuery]
      simp [matchesConditions, sortRows, insertSorted, docBefore, DESCENDING, hbeq, hlt]
    · intro hlt
      have hbeq : beqValue (fieldValOf d2 (storageNameOf reg f))
          (fieldValOf d1 (storageNameOf reg f)) = false :=
        vless_beq_false _ _ hlt
      have hnlt : vless (fieldValOf d1 (storageNameOf reg f))
          (fieldValOf d2 (storageNameOf reg f)) = false :=
        vless_asymm _ _ hlt
      unfold find_all matchingRows
      rw [hcoll]
      simp only [objectsQuery]
      simp [matchesConditions, sortRows, insertSorted, docBefore, DESCENDING, hbeq, hnlt]
  · exact Except.noConfusion hq

/-- Witness for C8: the two Users of the test suite ordered by first
name descending come back with Someone before Bernardo, both when the
collection stores Bernardo first and when it stores Someone first. -/
theorem find_all_descending_witness :
    find_all testEnv userReg
      (QuerySpec.mk "User" [] [("first_name", DESCENDING)] none none)
      (Store.mk [("User",
        [(1, Value.vdoc [("email", Value.vstr "heynemann@gmail.com"),
            ("first_name", Value.vstr "Bernardo"),
            ("last_name", Value.vstr "Heynemann"),
            ("is_admin", Value.vbool true)]),
         (2, Value.vdoc [("email", Value.vstr "someone@gmail.com"),
            ("first_name", Value.vstr "Someone"),
            ("last_name", Value.vstr "Else"),
            ("is_admin", Value.vbool true)])])]) =
      [from_storage_representation testEnv userReg (some 2)
        (Value.vdoc [("email", Value.vstr "someone@gmail.com"),
          ("first_name", Value.vstr "Someone"),
          ("last_name", Value.vstr "Else"),
          ("is_admin", Value.vbool true)]),
       from_storage_representation testEnv userReg (some 1)
        (Value.vdoc [("email", Value.vstr "heynemann@gmail.com"),
          ("first_name", Value.vstr "Bernardo"),
          ("last_name", Value.vstr "Heynemann"),
          ("is_admin", Value.vbool true)])] ∧
    find_all testEnv userReg
      (QuerySpec.mk "User" [] [("first_name", DESCENDING)] none none)
      (Store.mk [("User",
        [(2, Value.vdoc [("email", Value.vstr "someone@gmail.com"),
            ("first_name", Value.vstr "Someone"),
            ("last_name", Value.vstr "Else"),
            ("is_admin", Value.vbool true)]),
         (1, Value.vdoc [("email", Value.vstr "heynemann@gmail.com"),
            ("first_name", Value.vstr "Bernardo"),
            ("last_name", Value.vstr "Heynemann"),
            ("is_admin", Value.vbool true)])])]) =
      [from_storage_representation testEnv userReg (some 2)
        (Value.vdoc [("email", Value.vstr "someone@gmail.com"),
          ("first_name", Value.vstr "Someone"),
          ("last_name", Value.vstr "Else"),
          ("is_admin", Value.vbool true)]),
       from_storage_representation testEnv userReg (some 1)
        (Value.vdoc [("email", Value.vstr "heynemann@gmail.com"),
          ("first_name", Value.vstr "Bernardo"),
          ("last_name", Value.vstr "Heynemann"),
          ("is_admin", Value.vbool true)])] :=
  ⟨(find_all_descending_two_docs testEnv userReg "first_name"
      (QuerySpec.mk "User" [] [("first_name", DESCENDING)] none none)
      1 2
      (Value.vdoc [("email", Value.vstr "heynemann@gmail.com"),
        ("first_name", Value.vstr "Bernardo"),
        ("last_name", Value.vstr "Heynemann"),
        ("is_admin", Value.vbool true)])
      (Value.vdoc [("email", Value.vstr "someone@gmail.com"),
        ("first_name", Value.vstr "Someone"),
        ("last_name", Value.vstr "Else"),
        ("is_admin", Value.vbool true)])
      (Store.mk [("User",
        [(1, Value.vdoc [("email", Value.vstr "heynemann@gmail.com"),
            ("first_name", Value.vstr "Bernardo"),
            ("last_name", Value.vstr "Heynemann"),
            ("is_admin", Value.vbool true)]),
         (2, Value.vdoc [("email", Value.vstr "someone@gmail.com"),
            ("first_name", Value.vstr "Someone"),
            ("last_name", Value.vstr "Else"),
            ("is_admin", Value.vbool true)])])])
      rfl rfl).1 (by decide),
   (find_all_descending_two_docs testEnv userReg "first_name"
      (QuerySpec.mk "User" [] [("first_name", DESCENDING)] none none)
      2 1
      (Value.vdoc [("email", Value.vstr "someone@gmail.com"),
        ("first_name", Value.vstr "Someone"),
        ("last_name", Value.vstr "Else"),
        ("is_admin", Value.vbool true)])
      (Value.vdoc [("email", Value.vstr "heynemann@gmail.com"),
        ("first_name", Value.vstr "Bernardo"),
        ("last_name", Value.vstr "Heynemann"),
        ("is_admin", Value.vbool true)])
      (Store.mk [("User",
        [(2, Value.vdoc [("email", Value.vstr "someone@gmail.com"),
            ("first_name", Value.vstr "Someone"),
            ("last_name", Value.vstr "Else"),
            ("is_admin", Value.vbool true)]),
         (1, Value.vdoc [("email", Value.vstr "heynemann@gmail.com"),
            ("first_name", Value.vstr "Bernardo"),
            ("last_name", Value.vstr "Heynemann"),
            ("is_admin", Value.vbool true)])])])
      rfl rfl).2 (by decide)⟩

theorem lookupVal_assembleDoc (name : String) :
    ∀ (descs : List FieldDescriptor) (conv : List (String × IValue)),
      lookupVal (assembleDoc descs conv) name =
        (descs.find? (fun e => e.semantic_name == name)).map
          (fun e =>
            match lookupVal conv e.storage_name with
            | some v => v
            | none => IValue.prim (defaultRaw e)) := by
  intro descs
  induction descs with
  | nil => intro conv; rfl
  | cons d rest ih =>
    intro conv
    by_cases hk : (d.semantic_name == name) = true
    · simp [assembleDoc, lookupVal, List.find?_cons, hk]
    · simp only [assembleDoc, lookupVal, List.find?_cons, hk]
      simp at hk
      simp [hk]
      exact ih conv

theorem lookupVal_convertFields (env : Env) (descs : List FieldDescriptor) (s : String) :
    ∀ kvs : List (String × Value),
      lookupVal (convertFields env descs kvs) s =
        (lookupRaw kvs s).map (fun v => convertValue env (typeOfStorage descs s) v) := by
  intro kvs
  induction kvs with
  | nil => rfl
  | cons p rest ih =>
    obtain ⟨k, v⟩ := p
    by_cases hk : (k == s) = true
    · have hks : k = s := by simpa using hk
      subst hks
      simp [convertFields, lookupVal, lookupRaw]
    · simp only [convertFields, lookupVal, lookupRaw, hk]
      simp at hk
      simp [hk]
      exact ih

theorem lookupRaw_assembleRaw (s : String) :
    ∀ (descs : List FieldDescriptor) (ser : List (String × Value)),
      lookupRaw (assembleRaw descs ser) s =
        (descs.find? (fun e => e.storage_name == s)).map
          (fun e =>
            match lookupRaw ser e.semantic_name with
            | some v => v
            | none => defaultRaw e) := by
  intro descs
  induction descs with
  | nil => intro ser; rfl
  | cons d rest ih =>
    intro ser
    by_cases hk : (d.storage_name == s) = true
    · simp [assembleRaw, lookupRaw, List.find?_cons, hk]
    · simp only [assembleRaw, lookupRaw, List.find?_cons, hk]
      simp at hk
      simp [hk]
      exact ih ser

theorem lookupRaw_serializeFields (env : Env) (descs : List FieldDescriptor) (k : String) :
    ∀ vals : List (String × IValue),
      lookupRaw (serializeFields env descs vals) k =
        (lookupVal vals k).map (fun v => serializeValue env (typeOfSemantic descs k) v) := by
  intro vals
  induction vals with
  | nil => rfl
  | cons p rest ih =>
    obtain ⟨k2, v⟩ := p
    by_cases hk : (k2 == k) = true
    · have hks : k2 = k := by simpa using hk
      subst hks
      simp [serializeFields, lookupVal, lookupRaw]
    · simp only [serializeFields, lookupVal, lookupRaw, hk]
      simp at hk
      simp [hk]
      exact ih

/-- C9: for every field declared with a default value and never
assigned on an instance (the schema may inherit the field from a
parent type), reading the field yields the declared default, both on
the live instance and on the instance rebuilt from its stored
representation after a save (the saved document carries the default
and the retrieved instance reads it back). -/
theorem default_survives_save_retrieve (env : Env) (reg : Registry)
    (inst : DocInstance) (f : String) (d : FieldDescriptor) (dv : Value)
    (hf : fieldOf reg f = some d)
    (hfs : reg.fields.find? (fun e => e.storage_name == d.storage_name) = some d)
    (hd : d.default = some dv)
    (hnb : lookupVal inst.values d.semantic_name = none)
    (hconv : convertValue env d.type_tag dv = IValue.prim dv) :
    get_attribute reg inst f = Except.ok (IValue.prim dv) ∧
    get_attribute reg
      (from_storage_representation env reg inst.identity
        (to_storage_representation env reg inst)) f =
      Except.ok (IValue.prim dv) := by
  have hsem : d.semantic_name = f := by
    have h2 := List.find?_some hf
    simpa using h2
  have hfd : reg.fields.find? (fun e => e.semantic_name == d.semantic_name) = some d := by
    rw [hsem]
    exact hf
  have hdr : defaultRaw d = dv := by
    unfold defaultRaw
    rw [hd]
  have hts : typeOfStorage reg.fields d.storage_name = d.type_tag := by
    unfold typeOfStorage
    rw [hfs]
  constructor
  · unfold get_attribute
    simp [hf, currentValue, hnb, hd]
  · unfold get_attribute
    simp only [hf]
    simp only [currentValue, to_storage_representation, from_storage_representation,
      serializeDoc, convertDoc]
    rw [lookupVal_assembleDoc, hfd]
    simp only [Option.map]
    rw [lookupVal_convertFields, lookupRaw_assembleRaw, hfs]
    simp only [Option.map]
    rw [lookupRaw_serializeFields, hnb]
    simp only [Option.map]
    simp [hdr, hts, hconv]

/-- Witness for C9: an Employee never assigned is-admin (a field
inherited from User with default true) reads back true, both live and
after the save round trip, as the test suite asserts. -/
theorem default_survives_witness :
    get_attribute employeeReg
      (DocInstance.mk "Employee" (some 1)
        [("email", IValue.prim (Value.vstr "heynemann@gmail.com")),
         ("first_name", IValue.prim (Value.vstr "Bernardo")),
         ("last_name", IValue.prim (Value.vstr "Heynemann")),
         ("emp_number", IValue.prim (Value.vstr "Employee"))] false) "is_admin" =
      Except.ok (IValue.prim (Value.vbool true)) ∧
    get_attribute employeeReg
      (from_storage_representation testEnv employeeReg
        (DocInstance.mk "Employee" (some 1)
          [("email", IValue.prim (Value.vstr "heynemann@gmail.com")),
           ("first_name", IValue.prim (Value.vstr "Bernardo")),
           ("last_name", IValue.prim (Value.vstr "Heynemann")),
           ("emp_number", IValue.prim (Value.vstr "Employee"))] false).identity
        (to_storage_representation testEnv employeeReg
          (DocInstance.mk "Employee" (some 1)
            [("email", IValue.prim (Value.vstr "heynemann@gmail.com")),
             ("first_name", IValue.prim (Value.vstr "Bernardo")),
             ("last_name", IValue.prim (Value.vstr "Heynemann")),
             ("emp_number", IValue.prim (Value.vstr "Employee"))] false))) "is_admin" =
      Except.ok (IValue.prim (Value.vbool true)) :=
  default_survives_save_retrieve testEnv employeeReg
    (DocInstance.mk "Employee" (some 1)
      [("email", IValue.prim (Value.vstr "heynemann@gmail.com")),
       ("first_name", IValue.prim (Value.vstr "Bernardo")),
       ("last_name", IValue.prim (Value.vstr "Heynemann")),
       ("emp_number", IValue.prim (Value.vstr "Employee"))] false)
    "is_admin" (BooleanField "is_admin" (some true)) (Value.vbool true)
    rfl rfl rfl rfl rfl

/-- Modelled from the spec: the semantic names of a field map. -/
def semanticNames (fields : List FieldDescriptor) : List String :=
  fields.map (fun d => d.semantic_name)

mutual

/-- Modelled from the spec: storage-faithfulness of one field value
under its descriptor type: null is always admissible, primitives match
their declared shape, reference fields hold unresolved stored ids
tagged with the declared target, embedded documents carry no own
identity and have storage-faithful fields under their own schema, and
lists are elementwise faithful.  This is the shape every value has
after a fetch from the store. -/
def wfValue (env : Env) : FieldType → IValue → Bool
  | _, IValue.prim Value.vnull => true
  | FieldType.stringField, IValue.prim (Value.vstr _) => true
  | FieldType.booleanField, IValue.prim (Value.vbool _) => true
  | FieldType.referenceField t, IValue.refUnresolved t2 _ => t == t2
  | FieldType.embeddedField t, IValue.doc t2 none vals =>
    t == t2 && wfFields env (fieldsOfType env t) vals
  | FieldType.listField et, IValue.list xs => wfList env et xs
  | _, _ => false

/-- Modelled from the spec: elementwise storage-faithfulness of a
sequence. -/
def wfList (env : Env) (et : FieldType) : List IValue → Bool
  | [] => true
  | x :: xs => wfValue env et x && wfList env et xs

/-- Modelled from the spec: storage-faithfulness of a document field
map: the assigned values align one to one with the declared fields in
schema order, under their semantic names. -/
def wfFields (env : Env) : List FieldDescriptor → List (String × IValue) → Bool
  | [], [] => true
  | d :: ds, (k, v) :: vs =>
    k == d.semantic_name && wfValue env d.type_tag v && wfFields env ds vs
  | _, _ => false

end

/-- Modelled from the spec: a registry environment whose entries have
pairwise distinct storage names and semantic names, the invariant the
declaration surface enforces. -/
def envNodup (env : Env) : Prop :=
  ∀ r ∈ env, (storageNames r.fields).Nodup ∧ (semanticNames r.fields).Nodup

theorem roundtrip_prim (env : Env) (ft : FieldType) (w : Value)
    (hwf : wfValue env ft (IValue.prim w) = true) :
    convertValue env ft w = IValue.prim w := by
  cases ft <;> cases w <;> simp [wfValue] at hwf <;> rfl

theorem serialize_prim (env : Env) (ft : FieldType) (w : Value) :
    serializeValue env ft (IValue.prim w) = w := by
  cases ft <;> rfl

theorem wfFields_length (env : Env) :
    ∀ (descs : List FieldDescriptor) (vals : List (String × IValue)),
      wfFields env descs vals = true → descs.length = vals.length := by
  intro descs
  induction descs with
  | nil =>
    intro vals h
    cases vals with
    | nil => rfl
    | cons p vs => simp [wfFields] at h
  | cons d ds ih =>
    intro vals h
    cases vals with
    | nil => simp [wfFields] at h
    | cons p vs =>
      obtain ⟨k, v⟩ := p
      simp [wfFields] at h
      simp [ih vs h.2]

theorem zip_aligned_props (env : Env) :
    ∀ (descs : List FieldDescriptor) (vals : List (String × IValue)),
      wfFields env descs vals = true →
      ∀ (d : FieldDescriptor) (k : String) (v : IValue),
        (d, (k, v)) ∈ descs.zip vals →
        k = d.semantic_name ∧ wfValue env d.type_tag v = true := by
  intro descs
  induction descs with
  | nil => intro vals h d k v hm; simp at hm
  | cons d0 ds ih =>
    intro vals h d k v hm
    cases vals with
    | nil => simp [wfFields] at h
    | cons p vs =>
      obtain ⟨k0, v0⟩ := p
      simp [wfFields] at h
      simp [List.zip_cons_cons] at hm
      rcases hm with ⟨hd, hk, hv⟩ | hm
      · subst hd
        subst hk
        subst hv
        exact ⟨h.1.1, h.1.2⟩
      · exact ih vs h.2 d k v hm

theorem lookup_aligned (env : Env) :
    ∀ (descs : List FieldDescriptor) (vals : List (String × IValue)),
      wfFields env descs vals = true →
      (semanticNames descs).Nodup →
      ∀ (d : FieldDescriptor) (k : String) (v : IValue),
        (d, (k, v)) ∈ descs.zip vals →
        lookupVal vals d.semantic_name = some v := by
  intro descs
  induction descs with
  | nil => intro vals h hnd d k v hm; simp at hm
  | cons d0 ds ih =>
    intro vals h hnd d k v hm
    cases vals with
    | nil => simp [wfFields] at h
    | cons p vs =>
      obtain ⟨k0, v0⟩ := p
      simp [wfFields] at h
      have hk0 : k0 = d0.semantic_name := h.1.1
      simp [List.zip_cons_cons] at hm
      rcases hm with ⟨hd, hk, hv⟩ | hm
      · subst hd
        subst hk
        subst hv
        simp [lookupVal, hk0]
      · have hdmem : d ∈ ds := (List.of_mem_zip hm).1
        have hnd2 : d0.semantic_name ∉ semanticNames ds ∧ (semanticNames ds).Nodup := by
          rw [show semanticNames (d0 :: ds) = d0.semantic_name :: semanticNames ds from rfl] at hnd
          exact List.nodup_cons.mp hnd
        have hne : d0.semantic_name ≠ d.semantic_name := by
          intro heq
          have hmem : d0.semantic_name ∈ semanticNames ds := by
            rw [heq]
            exact List.mem_map_of_mem (fun e => e.semantic_name) hdmem
          exact hnd2.1 hmem
        have hcond : (d0.semantic_name == d.semantic_name) = false :=
          beq_eq_false_iff_ne.mpr hne
        have hstep : lookupVal ((k0, v0) :: vs) d.semantic_name = lookupVal vs d.semantic_name := by
          simp only [lookupVal, hk0, hcond]
          simp
        rw [hstep]
        exact ih vs h.2 hnd2.2 d k v hm

theorem find?_proj_self (f : FieldDescriptor → String) :
    ∀ (descs : List FieldDescriptor) (d : FieldDescriptor),
      d ∈ descs → (descs.map f).Nodup →
      descs.find? (fun e => f e == f d) = some d := by
  intro descs
  induction descs with
  | nil => intro d hd hnd; simp at hd
  | cons e rest ih =>
    intro d hd hnd
    have hnd2 : f e ∉ rest.map f ∧ (rest.map f).Nodup := by
      rw [show (e :: rest).map f = f e :: rest.map f from rfl] at hnd
      exact List.nodup_cons.mp hnd
    rcases List.mem_cons.mp hd with he | hrest
    · subst he
      simp [List.find?_cons]
    · by_cases hfe : (f e == f d) = true
      · exfalso
        have : f e ∈ rest.map f := by
          rw [show f e = f d from by simpa using hfe]
          exact List.mem_map_of_mem f hrest
        exact hnd2.1 this
      · rw [List.find?_cons_of_neg _ (by simpa using hfe)]
        exact ih d hrest hnd2.2

theorem assembleDoc_map (conv : List (String × IValue)) :
    ∀ descs : List FieldDescriptor,
      assembleDoc descs conv = descs.map (fun d =>
        (d.semantic_name,
          match lookupVal conv d.storage_name with
          | some v => v
          | none => IValue.prim (defaultRaw d))) := by
  intro descs
  induction descs with
  | nil => rfl
  | cons d rest ih => simp [assembleDoc, ih]

theorem map_eq_of_zip {α β : Type} (g : α → β) :
    ∀ (ds : List α) (vs : List β), ds.length = vs.length →
      (∀ p ∈ ds.zip vs, g p.1 = p.2) → ds.map g = vs := by
  intro ds
  induction ds with
  | nil =>
    intro vs hlen hp
    cases vs with
    | nil => rfl
    | cons v vs2 => simp at hlen
  | cons d ds2 ih =>
    intro vs hlen hp
    cases vs with
    | nil => simp at hlen
    | cons v vs2 =>
      simp only [List.map_cons]
      have h1 : g d = v := hp (d, v) (by simp [List.zip_cons_cons])
      rw [h1, ih vs2 (by simpa using hlen) (fun p hpz => hp p (by simp [List.zip_cons_cons, hpz]))]

theorem sizeOf_snd_of_zip_mem (descs : List FieldDescriptor) :
    ∀ (vals : List (String × IValue)) (d : FieldDescriptor) (k : String) (v : IValue),
      (d, (k, v)) ∈ descs.zip vals → sizeOf v < sizeOf vals := by
  intro vals d k v hm
  have hkv : (k, v) ∈ vals := (List.of_mem_zip hm).2
  have h1 : sizeOf (k, v) < sizeOf vals := List.sizeOf_lt_of_mem hkv
  simp at h1
  omega

mutual

theorem roundtrip_value (env : Env) (henv : envNodup env) (ft : FieldType) (v : IValue)
    (hwf : wfValue env ft v = true) :
    convertValue env ft (serializeValue env ft v) = v := by
  cases v with
  | prim w =>
    rw [serialize_prim]
    exact roundtrip_prim env ft w hwf
  | refUnresolved t2 i =>
    cases ft with
    | referenceField t =>
      have ht : t = t2 := by simpa [wfValue] using hwf
      subst ht
      rfl
    | stringField => simp [wfValue] at hwf
    | booleanField => simp [wfValue] at hwf
    | listField et => simp [wfValue] at hwf
    | embeddedField t => simp [wfValue] at hwf
  | doc t2 oid vals =>
    cases ft with
    | embeddedField t =>
      cases oid with
      | some i => simp [wfValue] at hwf
      | none =>
        have h2 : t = t2 ∧ wfFields env (fieldsOfType env t) vals = true := by
          simpa [wfValue] using hwf
        obtain ⟨ht, hvals⟩ := h2
        subst ht
        have hnod : (storageNames (fieldsOfType env t)).Nodup ∧
            (semanticNames (fieldsOfType env t)).Nodup := by
          unfold fieldsOfType
          cases hfr : findRegistry env t with
          | none => simp [storageNames, semanticNames]
          | some r =>
            have hrmem : r ∈ env := List.mem_of_find?_eq_some hfr
            exact henv r hrmem
        show IValue.doc t none (convertDoc env (fieldsOfType env t)
          (serializeDoc env (fieldsOfType env t) vals)) = IValue.doc t none vals
        rw [roundtrip_fields_chain env henv (fieldsOfType env t) vals hvals hnod.1 hnod.2]
    | stringField => simp [wfValue] at hwf
    | booleanField => simp [wfValue] at hwf
    | listField et => simp [wfValue] at hwf
    | referenceField t => simp [wfValue] at hwf
  | list xs =>
    cases ft with
    | listField et =>
      have hxs : wfList env et xs = true := by simpa [wfValue] using hwf
      show IValue.list (convertList env et (serializeList env et xs)) = IValue.list xs
      rw [roundtrip_list env henv et xs hxs]
    | stringField => simp [wfValue] at hwf
    | booleanField => simp [wfValue] at hwf
    | embeddedField t => simp [wfValue] at hwf
    | referenceField t => simp [wfValue] at hwf
termination_by (sizeOf v, 0)

theorem roundtrip_list (env : Env) (henv : envNodup env) (et : FieldType)
    (xs : List IValue) (hxs : wfList env et xs = true) :
    convertList env et (serializeList env et xs) = xs := by
  cases xs with
  | nil => rfl
  | cons x rest =>
    have h2 : wfValue env et x = true ∧ wfList env et rest = true := by
      simpa [wfList] using hxs
    show convertValue env et (serializeValue env et x)
        :: convertList env et (serializeList env et rest) = x :: rest
    rw [roundtrip_value env henv et x h2.1, roundtrip_list env henv et rest h2.2]
termination_by (sizeOf xs, 0)

theorem roundtrip_fields_chain (env : Env) (henv : envNodup env)
    (descs : List FieldDescriptor) (vals : List (String × IValue))
    (hwf : wfFields env descs vals = true)
    (hs : (storageNames descs).Nodup) (hm : (semanticNames descs).Nodup) :
    convertDoc env descs (serializeDoc env descs vals) = vals := by
  have hlen := wfFields_length env descs vals hwf
  rw [show convertDoc env descs (serializeDoc env descs vals)
      = assembleDoc descs (convertFields env descs
          (assembleRaw descs (serializeFields env descs vals))) from rfl]
  rw [assembleDoc_map]
  apply map_eq_of_zip _ descs vals hlen
  intro p hp
  obtain ⟨d, k, v⟩ := p
  have hprops := zip_aligned_props env descs vals hwf d k v hp
  have hlook := lookup_aligned env descs vals hwf hm d k v hp
  have hdmem : d ∈ descs := (List.of_mem_zip hp).1
  have hfindS : descs.find? (fun e => e.storage_name == d.storage_name) = some d :=
    find?_proj_self (fun e => e.storage_name) descs d hdmem (by simpa [storageNames] using hs)
  have hfindM : descs.find? (fun e => e.semantic_name == d.semantic_name) = some d :=
    find?_proj_self (fun e => e.semantic_name) descs d hdmem (by simpa [semanticNames] using hm)
  have htS : typeOfStorage descs d.storage_name = d.type_tag := by
    unfold typeOfStorage
    rw [hfindS]
  have htM : typeOfSemantic descs d.semantic_name = d.type_tag := by
    unfold typeOfSemantic
    rw [hfindM]
  have hser : lookupRaw (serializeFields env descs vals) d.semantic_name
      = some (serializeValue env d.type_tag v) := by
    rw [lookupRaw_serializeFields, hlook]
    simp [Option.map, htM]
  have hraw : lookupRaw (assembleRaw descs (serializeFields env descs vals)) d.storage_name
      = some (serializeValue env d.type_tag v) := by
    rw [lookupRaw_assembleRaw, hfindS]
    simp [Option.map, hser]
  have hcv : lookupVal (convertFields env descs
      (assembleRaw descs (serializeFields env descs vals))) d.storage_name
      = some (convertValue env d.type_tag (serializeValue env d.type_tag v)) := by
    rw [lookupVal_convertFields, hraw]
    simp [Option.map, htS]
  have hsz : sizeOf v < sizeOf vals := sizeOf_snd_of_zip_mem descs vals d k v hp
  have hrt : convertValue env d.type_tag (serializeValue env d.type_tag v) = v :=
    roundtrip_value env henv d.type_tag v hprops.2
  simp [hcv, hrt, hprops.1]
termination_by (sizeOf vals, 1)

end

/-- Auxiliary strengthening: on instances with every declared field
assigned in schema order and every value storage-faithful, the round
trip is the exact structural identity. -/
theorem roundtrip_identity_on_storage_faithful (env : Env) (reg : Registry)
    (x : DocInstance) (henv : envNodup env)
    (hs : (storageNames reg.fields).Nodup) (hm : (semanticNames reg.fields).Nodup)
    (htn : x.type_name = reg.type_name) (hpl : x.is_partly_loaded = false)
    (hwf : wfFields env reg.fields x.values = true) :
    from_storage_representation env reg x.identity
      (to_storage_representation env reg x) = x := by
  show DocInstance.mk reg.type_name x.identity
      (convertDoc env reg.fields (serializeDoc env reg.fields x.values)) false = x
  rw [roundtrip_fields_chain env henv reg.fields x.values hwf hs hm]
  cases x with
  | mk tn oid vals pl =>
    simp at htn hpl ⊢
    simp [htn, hpl]

/-- Counterexample for C1: a saved Comment whose user reference field
holds the resolved User instance (exactly what the blog-post test
saves) does not round trip to itself: the rebuilt instance holds the
unresolved stored id in that field. -/
theorem roundtrip_fails_on_resolved_reference :
    ¬ (from_storage_representation testEnv commentReg (some 1)
        (to_storage_representation testEnv commentReg
          (DocInstance.mk "Comment" (some 1)
            [("text", IValue.prim (Value.vstr "Comment text")),
             ("user", IValue.doc "User" (some 1)
                [("email", IValue.prim (Value.vstr "heynemann@gmail.com"))])] false)) =
      DocInstance.mk "Comment" (some 1)
        [("text", IValue.prim (Value.vstr "Comment text")),
         ("user", IValue.doc "User" (some 1)
            [("email", IValue.prim (Value.vstr "heynemann@gmail.com"))])] false) := by
  intro h
  have h2 : (some (IValue.refUnresolved "User" 1) : Option IValue)
      = some (IValue.doc "User" (some 1)
          [("email", IValue.prim (Value.vstr "heynemann@gmail.com"))]) :=
    congrArg (fun d : DocInstance => lookupVal d.values "user") h
  injection h2 with h3
  exact IValue.noConfusion h3

/-- Concrete instance of the auxiliary strengthening: a
storage-faithful Employee instance with every declared field assigned
round trips to itself exactly. -/
theorem roundtrip_identity_witness :
    from_storage_representation testEnv employeeReg
      (DocInstance.mk "Employee" (some 7)
        [("email", IValue.prim (Value.vstr "heynemann@gmail.com")),
         ("first_name", IValue.prim (Value.vstr "Bernardo")),
         ("last_name", IValue.prim (Value.vstr "Heynemann")),
         ("is_admin", IValue.prim (Value.vbool true)),
         ("emp_number", IValue.prim (Value.vstr "Employee"))] false).identity
      (to_storage_representation testEnv employeeReg
        (DocInstance.mk "Employee" (some 7)
          [("email", IValue.prim (Value.vstr "heynemann@gmail.com")),
           ("first_name", IValue.prim (Value.vstr "Bernardo")),
           ("last_name", IValue.prim (Value.vstr "Heynemann")),
           ("is_admin", IValue.prim (Value.vbool true)),
           ("emp_number", IValue.prim (Value.vstr "Employee"))] false)) =
      DocInstance.mk "Employee" (some 7)
        [("email", IValue.prim (Value.vstr "heynemann@gmail.com")),
         ("first_name", IValue.prim (Value.vstr "Bernardo")),
         ("last_name", IValue.prim (Value.vstr "Heynemann")),
         ("is_admin", IValue.prim (Value.vbool true)),
         ("emp_number", IValue.prim (Value.vstr "Employee"))] false :=
  roundtrip_identity_on_storage_faithful testEnv employeeReg
    (DocInstance.mk "Employee" (some 7)
      [("email", IValue.prim (Value.vstr "heynemann@gmail.com")),
       ("first_name", IValue.prim (Value.vstr "Bernardo")),
       ("last_name", IValue.prim (Value.vstr "Heynemann")),
       ("is_admin", IValue.prim (Value.vbool true)),
       ("emp_number", IValue.prim (Value.vstr "Employee"))] false)
    (by
      intro r hr
      simp [testEnv] at hr
      rcases hr with h | h | h | h <;> subst h <;> exact ⟨by decide, by decide⟩)
    (by decide) (by decide) rfl rfl rfl

theorem roundtrip_lookup (env : Env) (reg : Registry) (vals : List (String × IValue))
    (d : FieldDescriptor) (hdmem : d ∈ reg.fields)
    (hs : (storageNames reg.fields).Nodup) (hm : (semanticNames reg.fields).Nodup) :
    lookupVal (convertDoc env reg.fields (serializeDoc env reg.fields vals)) d.semantic_name
      = some (match lookupVal vals d.semantic_name with
          | some v => convertValue env d.type_tag (serializeValue env d.type_tag v)
          | none => convertValue env d.type_tag (defaultRaw d)) := by
  have hfindS : reg.fields.find? (fun e => e.storage_name == d.storage_name) = some d :=
    find?_proj_self (fun e => e.storage_name) reg.fields d hdmem
      (by simpa [storageNames] using hs)
  have hfindM : reg.fields.find? (fun e => e.semantic_name == d.semantic_name) = some d :=
    find?_proj_self (fun e => e.semantic_name) reg.fields d hdmem
      (by simpa [semanticNames] using hm)
  have htS : typeOfStorage reg.fields d.storage_name = d.type_tag := by
    unfold typeOfStorage
    rw [hfindS]
  have htM : typeOfSemantic reg.fields d.semantic_name = d.type_tag := by
    unfold typeOfSemantic
    rw [hfindM]
  rw [show convertDoc env reg.fields (serializeDoc env reg.fields vals)
      = assembleDoc reg.fields (convertFields env reg.fields
          (assembleRaw reg.fields (serializeFields env reg.fields vals))) from rfl]
  simp only [lookupVal_assembleDoc, lookupVal_convertFields, lookupRaw_assembleRaw,
    lookupRaw_serializeFields, hfindM, hfindS, htS, htM, Option.map]
  cases hx : lookupVal vals d.semantic_name with
  | some v => simp
  | none => simp

theorem currentValue_of_none (x : DocInstance) (d : FieldDescriptor)
    (h : lookupVal x.values d.semantic_name = none) :
    currentValue x d = IValue.prim (defaultRaw d) := by
  unfold currentValue
  rw [h]
  unfold defaultRaw
  cases d.default <;> rfl

theorem get_attribute_congr (reg : Registry) (a b : DocInstance) (n : String)
    (hty : a.type_name = b.type_name)
    (hcv : ∀ d, fieldOf reg n = some d → currentValue a d = currentValue b d) :
    get_attribute reg a n = get_attribute reg b n := by
  unfold get_attribute
  cases hf : fieldOf reg n with
  | none => rfl
  | some d =>
    show (match currentValue a d with
          | IValue.refUnresolved t i =>
            Except.error (MError.loadReferencesRequired
              (loadReferencesRequiredMsg n a.type_name))
          | v => Except.ok v)
        = (match currentValue b d with
          | IValue.refUnresolved t i =>
            Except.error (MError.loadReferencesRequired
              (loadReferencesRequiredMsg n b.type_name))
          | v => Except.ok v)
    rw [hcv d hf, hty]

/-- C1 (amended): deserializing the serialized storage representation
of a saved instance preserves the identity and every declared field as
read through the attribute surface, for every instance whose assigned
values are storage-faithful for their declared types, in particular
with reference slots holding stored ids; fields left unassigned
(reading as the declared default) are preserved as well.  This is
exactly the form of every instance the cited tests save.  The only
exclusion the counterexample forces is a reference slot holding a
resolved target instance: there the fetched copy holds the stored id
instead and reading it requires load-references first. -/
theorem roundtrip_preserves_declared_fields (env : Env) (reg : Registry)
    (x : DocInstance) (henv : envNodup env)
    (hs : (storageNames reg.fields).Nodup) (hm : (semanticNames reg.fields).Nodup)
    (htn : x.type_name = reg.type_name)
    (hvals : ∀ d ∈ reg.fields, ∀ v, lookupVal x.values d.semantic_name = some v →
      wfValue env d.type_tag v = true)
    (hdefs : ∀ d ∈ reg.fields, convertValue env d.type_tag (defaultRaw d)
      = IValue.prim (defaultRaw d)) :
    (from_storage_representation env reg x.identity
      (to_storage_representation env reg x)).identity = x.identity ∧
    ∀ n, (allowedAttributeNames reg).contains n = true →
      get_attribute reg (from_storage_representation env reg x.identity
        (to_storage_representation env reg x)) n = get_attribute reg x n := by
  constructor
  · rfl
  · intro n hn
    apply get_attribute_congr
    · rw [htn]
      rfl
    · intro d hf
      have hdmem : d ∈ reg.fields := List.mem_of_find?_eq_some hf
      have hrt : lookupVal (from_storage_representation env reg x.identity
          (to_storage_representation env reg x)).values d.semantic_name
          = some (match lookupVal x.values d.semantic_name with
              | some v => convertValue env d.type_tag (serializeValue env d.type_tag v)
              | none => convertValue env d.type_tag (defaultRaw d)) :=
        roundtrip_lookup env reg x.values d hdmem hs hm
      cases hx : lookupVal x.values d.semantic_name with
      | some v =>
        rw [hx] at hrt
        have hwfv : wfValue env d.type_tag v = true := hvals d hdmem v hx
        have hv : convertValue env d.type_tag (serializeValue env d.type_tag v) = v :=
          roundtrip_value env henv d.type_tag v hwfv
        unfold currentValue
        rw [hrt, hx]
        simp [hv]
      | none =>
        rw [hx] at hrt
        rw [currentValue_of_none x d hx]
        unfold currentValue
        rw [hrt]
        simp [hdefs d hdmem]

/-- Witness for C1 (amended): the Employee instance the cited test
saves, with is-admin left to its default, keeps its identity and reads
the same on the defaulted field and on an assigned field after the
storage round trip. -/
theorem roundtrip_preserves_witness :
    (from_storage_representation testEnv employeeReg (some 7)
      (to_storage_representation testEnv employeeReg
        (DocInstance.mk "Employee" (some 7)
          [("email", IValue.prim (Value.vstr "heynemann@gmail.com")),
           ("first_name", IValue.prim (Value.vstr "Bernardo")),
           ("last_name", IValue.prim (Value.vstr "Heynemann")),
           ("emp_number", IValue.prim (Value.vstr "Employee"))] false))).identity
      = some 7 ∧
    get_attribute employeeReg
      (from_storage_representation testEnv employeeReg (some 7)
        (to_storage_representation testEnv employeeReg
          (DocInstance.mk "Employee" (some 7)
            [("email", IValue.prim (Value.vstr "heynemann@gmail.com")),
             ("first_name", IValue.prim (Value.vstr "Bernardo")),
             ("last_name", IValue.prim (Value.vstr "Heynemann")),
             ("emp_number", IValue.prim (Value.vstr "Employee"))] false))) "is_admin"
      = get_attribute employeeReg
          (DocInstance.mk "Employee" (some 7)
            [("email", IValue.prim (Value.vstr "heynemann@gmail.com")),
             ("first_name", IValue.prim (Value.vstr "Bernardo")),
             ("last_name", IValue.prim (Value.vstr "Heynemann")),
             ("emp_number", IValue.prim (Value.vstr "Employee"))] false) "is_admin" ∧
    get_attribute employeeReg
      (from_storage_representation testEnv employeeReg (some 7)
        (to_storage_representation testEnv employeeReg
          (DocInstance.mk "Employee" (some 7)
            [("email", IValue.prim (Value.vstr "heynemann@gmail.com")),
             ("first_name", IValue.prim (Value.vstr "Bernardo")),
             ("last_name", IValue.prim (Value.vstr "Heynemann")),
             ("emp_number", IValue.prim (Value.vstr "Employee"))] false))) "email"
      = get_attribute employeeReg
          (DocInstance.mk "Employee" (some 7)
            [("email", IValue.prim (Value.vstr "heynemann@gmail.com")),
             ("first_name", IValue.prim (Value.vstr "Bernardo")),
             ("last_name", IValue.prim (Value.vstr "Heynemann")),
             ("emp_number", IValue.prim (Value.vstr "Employee"))] false) "email" :=
  have hthm := roundtrip_preserves_declared_fields testEnv employeeReg
    (DocInstance.mk "Employee" (some 7)
      [("email", IValue.prim (Value.vstr "heynemann@gmail.com")),
       ("first_name", IValue.prim (Value.vstr "Bernardo")),
       ("last_name", IValue.prim (Value.vstr "Heynemann")),
       ("emp_number", IValue.prim (Value.vstr "Employee"))] false)
    (by
      intro r hr
      simp [testEnv] at hr
      rcases hr with h | h | h | h <;> subst h <;> exact ⟨by decide, by decide⟩)
    (by decide) (by decide) rfl
    (by
      intro d hd v hv
      rw [show employeeReg.fields =
        [StringField "email" true none, StringField "first_name" false (some 50),
         StringField "last_name" false (some 50), BooleanField "is_admin" (some true),
         StringField "emp_number" false none] from rfl] at hd
      simp at hd
      rcases hd with h | h | h | h | h <;> subst h
      · have h2 : some (IValue.prim (Value.vstr "heynemann@gmail.com")) = some v := hv
        injection h2 with h3
        rw [← h3]
        rfl
      · have h2 : some (IValue.prim (Value.vstr "Bernardo")) = some v := hv
        injection h2 with h3
        rw [← h3]
        rfl
      · have h2 : some (IValue.prim (Value.vstr "Heynemann")) = some v := hv
        injection h2 with h3
        rw [← h3]
        rfl
      · exact Option.noConfusion (show (none : Option IValue) = some v from hv)
      · have h2 : some (IValue.prim (Value.vstr "Employee")) = some v := hv
        injection h2 with h3
        rw [← h3]
        rfl)
    (by
      intro d hd
      rw [show employeeReg.fields =
        [StringField "email" true none, StringField "first_name" false (some 50),
         StringField "last_name" false (some 50), BooleanField "is_admin" (some true),
         StringField "emp_number" false none] from rfl] at hd
      simp at hd
      rcases hd with h | h | h | h | h <;> subst h <;> rfl)
  ⟨hthm.1, hthm.2 "is_admin" rfl, hthm.2 "email" rfl⟩

/-- Modelled from the spec: the stored User document of the blog-post
scenario of the test suite, with arbitrary field contents. -/
def blogUserRaw (email fn ln : String) : Value :=
  Value.vdoc [("email", Value.vstr email), ("first_name", Value.vstr fn),
    ("last_name", Value.vstr ln), ("is_admin", Value.vbool true)]

/-- Modelled from the spec: the store of the blog-post scenario: one
User document and one Post document whose embedded comment references
the user by stored id. -/
def blogStore (uid pid : Nat) (email fn ln ctext title body : String) : Store :=
  Store.mk
    [("User", [(uid, blogUserRaw email fn ln)]),
     ("Post", [(pid, Value.vdoc
        [("title", Value.vstr title), ("body", Value.vstr body),
         ("comments", Value.vlist [Value.vdoc
            [("text", Value.vstr ctext), ("user", Value.vid uid)]])])])]

/-- Modelled from the spec: the materialized Post graph of the
blog-post scenario: a list of embedded Comment documents where exactly
one embedded document holds exactly one unresolved reference. -/
def blogPost (uid pid : Nat) (ctext title body : String) : DocInstance :=
  DocInstance.mk "Post" (some pid)
    [("title", IValue.prim (Value.vstr title)),
     ("body", IValue.prim (Value.vstr body)),
     ("comments", IValue.list [IValue.doc "Comment" none
        [("text", IValue.prim (Value.vstr ctext)),
         ("user", IValue.refUnresolved "User" uid)]])] false

/-- Modelled from the spec: the full User instance the scenario
resolves to (identity and every field value of the referenced
document). -/
def blogUserIV (uid : Nat) (email fn ln : String) : IValue :=
  IValue.doc "User" (some uid)
    [("email", IValue.prim (Value.vstr email)),
     ("first_name", IValue.prim (Value.vstr fn)),
     ("last_name", IValue.prim (Value.vstr ln)),
     ("is_admin", IValue.prim (Value.vbool true))]

/-- C2: in a materialized document graph holding a list of embedded
documents where exactly one embedded document holds one unresolved
reference: the graph is what fetch-by-identity materializes from the
store; reading the reference field before resolution fails with the
load-references-required error naming the field and the owning
document type; load-references resolves exactly 1 slot, splicing the
full target instance (same identity and field values as the referenced
document) into the graph; and reading the field afterwards yields that
full instance. -/
theorem load_references_blog_post (uid pid : Nat)
    (email fn ln ctext title body : String) :
    getById testEnv postReg (blogStore uid pid email fn ln ctext title body) pid
      = some (blogPost uid pid ctext title body) ∧
    get_attribute commentReg
      (DocInstance.mk "Comment" none
        [("text", IValue.prim (Value.vstr ctext)),
         ("user", IValue.refUnresolved "User" uid)] false) "user"
      = Except.error (MError.loadReferencesRequired
          (loadReferencesRequiredMsg "user" "Comment")) ∧
    load_references testEnv (blogStore uid pid email fn ln ctext title body)
        (blogPost uid pid ctext title body)
      = (1, DocInstance.mk "Post" (some pid)
          [("title", IValue.prim (Value.vstr title)),
           ("body", IValue.prim (Value.vstr body)),
           ("comments", IValue.list [IValue.doc "Comment" none
              [("text", IValue.prim (Value.vstr ctext)),
               ("user", blogUserIV uid email fn ln)]])] false) ∧
    get_attribute commentReg
      (DocInstance.mk "Comment" none
        [("text", IValue.prim (Value.vstr ctext)),
         ("user", blogUserIV uid email fn ln)] false) "user"
      = Except.ok (blogUserIV uid email fn ln) := by
  have hfetchU : fetchOne (blogStore uid pid email fn ln ctext title body) "User" uid
      = some (blogUserRaw email fn ln) := by
    simp [fetchOne, collectionOf, blogStore]
  have huser : from_storage_representation testEnv userReg (some uid)
      (blogUserRaw email fn ln)
      = DocInstance.mk "User" (some uid)
        [("email", IValue.prim (Value.vstr email)),
         ("first_name", IValue.prim (Value.vstr fn)),
         ("last_name", IValue.prim (Value.vstr ln)),
         ("is_admin", IValue.prim (Value.vbool true))] false := rfl
  refine ⟨?_, rfl, ?_, rfl⟩
  · have hfetchP : fetchOne (blogStore uid pid email fn ln ctext title body) "Post" pid
        = some (Value.vdoc
          [("title", Value.vstr title), ("body", Value.vstr body),
           ("comments", Value.vlist [Value.vdoc
              [("text", Value.vstr ctext), ("user", Value.vid uid)]])]) := by
      simp [fetchOne, collectionOf, blogStore]
    simp [getById]
    exact ⟨_, hfetchP, rfl⟩
  · have hslots : slotsFields (blogPost uid pid ctext title body).values
        = [("User", uid)] := rfl
    have hres : batchResults testEnv (blogStore uid pid email fn ln ctext title body)
        [("User", uid)]
        = [("User", uid, DocInstance.mk "User" (some uid)
            [("email", IValue.prim (Value.vstr email)),
             ("first_name", IValue.prim (Value.vstr fn)),
             ("last_name", IValue.prim (Value.vstr ln)),
             ("is_admin", IValue.prim (Value.vbool true))] false)] := by
      have hed : (["User"] : List String).eraseDups = ["User"] := rfl
      have hed2 : ([uid] : List Nat).eraseDups = [uid] := rfl
      have hfr : findRegistry testEnv "User" = some userReg := rfl
      have hscn : userReg.storage_collection_name = "User" := rfl
      simp [batchResults, distinctTargets, hed, hed2, fetchBatch, hfr, hscn,
        hfetchU, huser, collectionNameOf, regOfType]
    have hsplice : spliceFields
        [("User", uid, DocInstance.mk "User" (some uid)
            [("email", IValue.prim (Value.vstr email)),
             ("first_name", IValue.prim (Value.vstr fn)),
             ("last_name", IValue.prim (Value.vstr ln)),
             ("is_admin", IValue.prim (Value.vbool true))] false)]
        (blogPost uid pid ctext title body).values
        = (1, [("title", IValue.prim (Value.vstr title)),
               ("body", IValue.prim (Value.vstr body)),
               ("comments", IValue.list [IValue.doc "Comment" none
                  [("text", IValue.prim (Value.vstr ctext)),
                   ("user", blogUserIV uid email fn ln)]])]) := by
      simp [blogPost, spliceFields, spliceIV, spliceList, findResolved, blogUserIV]
    show (let slots := slotsFields (blogPost uid pid ctext title body).values
          let res := batchResults testEnv
            (blogStore uid pid email fn ln ctext title body) slots
          let p := spliceFields res (blogPost uid pid ctext title body).values
          (p.1, DocInstance.mk (blogPost uid pid ctext title body).type_name
            (blogPost uid pid ctext title body).identity p.2
            (blogPost uid pid ctext title body).is_partly_loaded)) = _
    rw [hslots]
    simp only [hres, hsplice]
    simp [blogPost]
